import Mathlib

/-!
# iShop inventory management: a verification development

A shallow embedding of `InnventoryManagementSystem.cpp`.

Modelling conventions.

* `int`, `long` and `size_t` values are integers (`Int`, `Nat`). Where the
  program adds or negates `int` values that the caller chooses (`updateStock`,
  the order counter, `getTotalStock`), the result is the one the machine
  computes: a value outside the 32-bit range wraps around (`addInt`, `negInt`).
  Loop indices and the count of constructed products stay far from the ends of
  the range and are computed as integers. The range checks that the library
  performs (`std::stoi`, `std::stol`) are modelled.
* `double` values are the rationals they denote (`ℚ`). `std::stod` rounds the
  text to the nearest `double`; sums and products of `double` values are exact.
  Infinities and NaN are outside the model.
* `std::string` is `String`; a file is the string of its contents.
* A `Product*` is the position of the pointee in the container of the inventory
  that owns it; the operations modelled with such references never reorder
  that container.
* A `const` method that may throw returns `Except Exn`. A method that writes to
  objects returns an `Outcome`: the exception thrown, if any, and the state of
  the objects at that moment, so that what a failed call leaves behind is
  visible.
-/

namespace IShop

/-! ## Exceptions -/

/-- The exceptions the program throws, with the data they carry.
`unsupported` is no exception of the program: it marks the texts that `std::stod`
reads as an infinity or a NaN, values the rationals do not have (see `stod`). -/
inductive Exn where
  | insufficientStock (itemName : String) (requested available : Int)
  | invalidPrice (price : ℚ)
  | invalidDiscount (discount : ℚ)
  | fileIOError (filename operation : String)
  | invalidArgument (what : String)
  | outOfRange (what : String)
  | unsupported (what : String)
  deriving DecidableEq, Repr

deriving instance DecidableEq for Except

/-- How a call that writes to objects ends: the exception it threw, if any, and
the state the objects are left in. -/
structure Outcome (σ : Type) where
  thrown : Option Exn
  state : σ
  deriving DecidableEq, Repr

/-! ## Numeric text: `operator<<` and `std::stoi` / `std::stol` / `std::stod` -/

/-- The character of a decimal digit `d < 10`. -/
def digitChar (d : Nat) : Char := Char.ofNat (48 + d)

/-- Decimal digits of `n`, most significant first; `fuel` bounds the number of digits. -/
def natDigitsFuel : Nat → Nat → List Char
  | 0, _ => []
  | fuel + 1, n =>
    if n < 10 then [digitChar n] else natDigitsFuel fuel (n / 10) ++ [digitChar (n % 10)]

/-- Text of `ss << n` for an unsigned integer. -/
def showNat (n : Nat) : List Char := natDigitsFuel (n + 1) n

/-- Text of `ss << i` for a signed integer (`int`, `long`). -/
def showInt (i : Int) : List Char :=
  if i < 0 then '-' :: showNat i.natAbs else showNat i.natAbs

/-- Value of a run of decimal digits. -/
def parseNat (cs : List Char) : Nat :=
  cs.foldl (fun acc c => 10 * acc + (c.toNat - 48)) 0

/-- The characters `isspace` accepts in the C locale. -/
def isSpace (c : Char) : Bool :=
  c == ' ' || c == '\t' || c == '\n' || c == '\x0b' || c == '\x0c' || c == '\r'

/-- Splits an optional sign off the front: `(negative, rest)`. -/
def takeSign : List Char → Bool × List Char
  | '-' :: r => (true, r)
  | '+' :: r => (false, r)
  | cs => (false, cs)

/-- Base-10 `strtol` with the range check of its caller: skips leading white
space, reads an optional sign and the longest run of digits; no digit is
`invalid_argument`, a value outside `[lo, hi]` is `out_of_range`. -/
def strtolChecked (fn : String) (lo hi : Int) (s : String) : Except Exn Int :=
  let (neg, cs) := takeSign (s.data.dropWhile isSpace)
  let ds := cs.takeWhile Char.isDigit
  if ds.isEmpty then .error (.invalidArgument fn)
  else
    let v : Int := if neg then -(parseNat ds : Int) else (parseNat ds : Int)
    if v < lo ∨ hi < v then .error (.outOfRange fn) else .ok v

/-- Model of `std::stoi` (32-bit `int`). -/
def stoi (s : String) : Except Exn Int := strtolChecked "stoi" (-2147483648) 2147483647 s

/-- Model of `std::stol` (64-bit `long`). -/
def stol (s : String) : Except Exn Int :=
  strtolChecked "stol" (-9223372036854775808) 9223372036854775807 s

/-- The value is an `int`. -/
def isInt32 (i : Int) : Prop := -2147483648 ≤ i ∧ i ≤ 2147483647

instance (i : Int) : Decidable (isInt32 i) := by
  unfold isInt32; infer_instance

/-- The `int` that is congruent to `i` modulo `2 ^ 32`: what a 32-bit register in
two's complement keeps of `i`. -/
def wrapInt32 (i : Int) : Int := (i + 2147483648) % 4294967296 - 2147483648

/-- The sum `a + b` of two `int` values as the machine computes it: a sum outside
the `int` range wraps around. (Signed overflow is undefined behaviour in C++;
this is what the compiled program does.) On an operand that is no `int`, which
no object of the program holds, the sum is that of the integers. -/
def addInt (a b : Int) : Int := if isInt32 a ∧ isInt32 b then wrapInt32 (a + b) else a + b

/-- The negation `-a` of an `int` value as the machine computes it: the negation
of the least `int` is that `int` again. On an operand that is no `int` it is the
negation of the integers. -/
def negInt (a : Int) : Int := if isInt32 a then wrapInt32 (-a) else -a

/-- Rounds the fraction `n / d` to the nearest natural number, ties to even. -/
def roundHalfEven (n d : Nat) : Nat :=
  let q := n / d
  let r := n % d
  if 2 * r < d then q else if d < 2 * r then q + 1 else if q % 2 = 0 then q else q + 1

/-- Searches downwards for the decimal exponent of `n / d < 1`: the least `k ≥ 1`
with `d ≤ n * 10 ^ k`, as `-k`. -/
def negExponentFuel : Nat → Nat → Nat → Nat → Int
  | 0, _, _, k => -(k : Int)
  | fuel + 1, n, d, k => if d ≤ n * 10 ^ k then -(k : Int) else negExponentFuel fuel n d (k + 1)

/-- Decimal exponent `⌊log₁₀ (n / d)⌋` of a positive fraction. -/
def decExponent (n d : Nat) : Int :=
  if d ≤ n then ((showNat (n / d)).length - 1 : Nat) else negExponentFuel (showNat d).length n d 1

/-- The fraction `n / d` scaled by `10 ^ e` and rounded to a natural number. -/
def scaleRound (n d : Nat) (e : Int) : Nat :=
  if 0 ≤ e then roundHalfEven (n * 10 ^ e.toNat) d else roundHalfEven n (d * 10 ^ (-e).toNat)

/-- Drops the trailing zeros of a digit string. -/
def stripZeros (cs : List Char) : List Char :=
  (cs.reverse.dropWhile (fun c => c == '0')).reverse

/-- A fractional part as printed: nothing when it is all zeros, else a point and the digits. -/
def fracText (cs : List Char) : List Char :=
  let f := stripZeros cs
  if f.isEmpty then [] else '.' :: f

/-- Exponent suffix of scientific notation: `e`, a sign and at least two digits. -/
def expText (x : Int) : List Char :=
  let ds := showNat x.natAbs
  'e' :: (if x < 0 then '-' else '+') :: (if ds.length < 2 then '0' :: ds else ds)

/-- The `%g` text of six significant digits `m` (`100000 ≤ m < 1000000`) with
decimal exponent `x`: scientific notation when `x < -4` or `6 ≤ x`, else fixed
notation; trailing zeros of the fraction are dropped. -/
def showSig (m : Nat) (x : Int) : List Char :=
  let ds := showNat m
  if x < -4 ∨ 6 ≤ x then
    ds.take 1 ++ fracText (ds.drop 1) ++ expText x
  else if 0 ≤ x then
    ds.take (x.toNat + 1) ++ fracText (ds.drop (x.toNat + 1))
  else
    '0' :: fracText (List.replicate ((-x).toNat - 1) '0' ++ ds)

/-- Text of `ss << x` for a positive `double` of value `n / d`: the default
stream format, that is `%g` with six significant digits. -/
def showPos (n d : Nat) : List Char :=
  let x0 := decExponent n d
  let m0 := scaleRound n d (5 - x0)
  if m0 = 1000000 then showSig 100000 (x0 + 1) else showSig m0 x0

/-- Text of `ss << x` for a `double`. -/
def showDouble (x : ℚ) : List Char :=
  if x.num = 0 then ['0']
  else if x.num < 0 then '-' :: showPos x.num.natAbs x.den
  else showPos x.num.natAbs x.den

/-- Whether the text starts with the letters `w` (given in lower case), in either case. -/
def startsWithNoCase : List Char → List Char → Bool
  | _, [] => true
  | [], _ :: _ => false
  | c :: cs, w :: ws => c.toLower == w && startsWithNoCase cs ws

/-- Whether `strtod` reads the text (after the sign) as an infinity or a NaN. -/
def isInfOrNan (cs : List Char) : Bool :=
  startsWithNoCase cs ['i', 'n', 'f'] || startsWithNoCase cs ['n', 'a', 'n']

/-- The exponent part at the front of the text: the marker `e` (decimal) or `p`
(hexadecimal), in either case, an optional sign and decimal digits; `0` when
there is none (a marker that no digit follows is not part of the number). -/
def parseExponent (marker : Char) : List Char → Int
  | c :: r =>
    if c.toLower == marker then
      let (neg, r1) := takeSign r
      let ds := r1.takeWhile Char.isDigit
      if ds.isEmpty then 0 else if neg then -(parseNat ds : Int) else (parseNat ds : Int)
    else 0
  | [] => 0

/-- The decimal number at the front of the text as `(mantissa, exponent)`, meaning
`mantissa * 10 ^ exponent`; `none` when the text starts with no number. -/
def parseDecimal (cs : List Char) : Option (Nat × Int) :=
  let ip := cs.takeWhile Char.isDigit
  let r1 := cs.dropWhile Char.isDigit
  let fp := match r1 with
    | '.' :: r => r.takeWhile Char.isDigit
    | _ => []
  let r2 := match r1 with
    | '.' :: r => r.dropWhile Char.isDigit
    | _ => r1
  if ip.isEmpty && fp.isEmpty then none
  else some (parseNat (ip ++ fp), parseExponent 'e' r2 - (fp.length : Int))

/-- Value of a hexadecimal digit, `none` for another character. -/
def hexDigit (c : Char) : Option Nat :=
  if c.isDigit then some (c.toNat - 48)
  else if 'a' ≤ c ∧ c ≤ 'f' then some (c.toNat - 87)
  else if 'A' ≤ c ∧ c ≤ 'F' then some (c.toNat - 55)
  else none

/-- Value of a run of hexadecimal digits. -/
def parseHexNat (cs : List Char) : Nat :=
  cs.foldl (fun acc c => 16 * acc + (hexDigit c).getD 0) 0

/-- The hexadecimal number whose digits follow `0x` as `(mantissa, exponent)`,
meaning `mantissa * 2 ^ exponent`; `none` when no hexadecimal digit follows. -/
def parseHex (cs : List Char) : Option (Nat × Int) :=
  let isHex := fun c => (hexDigit c).isSome
  let ip := cs.takeWhile isHex
  let r1 := cs.dropWhile isHex
  let fp := match r1 with
    | '.' :: r => r.takeWhile isHex
    | _ => []
  let r2 := match r1 with
    | '.' :: r => r.dropWhile isHex
    | _ => r1
  if ip.isEmpty && fp.isEmpty then none
  else some (parseHexNat (ip ++ fp), parseExponent 'p' r2 - 4 * (fp.length : Int))

/-- The number `mantissa * base ^ exponent` as a fraction `(numerator, denominator)`. -/
def scaled (base mantissa : Nat) (exponent : Int) : Nat × Nat :=
  if 0 ≤ exponent then (mantissa * base ^ exponent.toNat, 1)
  else (mantissa, base ^ (-exponent).toNat)

/-- The number `strtod` reads at the front of the text (after the sign), as an
exact fraction: a hexadecimal number when `0x` and a hexadecimal digit start the
text, else the longest decimal number; `none` when the text starts with no number. -/
def parseNumber (cs : List Char) : Option (Nat × Nat) :=
  let hex := match cs with
    | '0' :: x :: r => if x == 'x' || x == 'X' then parseHex r else none
    | _ => none
  match hex with
  | some (m, e) => some (scaled 2 m e)
  | none => (parseDecimal cs).map (fun me => scaled 10 me.1 me.2)

/-- The loop that counts how often `n` can be halved before it is below 2; `fuel`
bounds the number of steps. -/
def floorLog2Fuel : Nat → Nat → Nat
  | 0, _ => 0
  | fuel + 1, n => if n < 2 then 0 else floorLog2Fuel fuel (n / 2) + 1

/-- Binary exponent `⌊log₂ n⌋` of a positive natural number. -/
def floorLog2 (n : Nat) : Nat := floorLog2Fuel n n

/-- Binary exponent `⌊log₂ (n / d)⌋` of a positive fraction. -/
def binExponent (n d : Nat) : Int :=
  let e : Int := (floorLog2 n : Int) - (floorLog2 d : Int)
  if (scaled 2 d e).1 ≤ n * (scaled 2 d e).2 then e else e - 1

/-- The fraction `n / d` divided by `2 ^ p` and rounded to a natural number, ties
to even, and whether nothing was rounded off. -/
def roundAt (n d : Nat) (p : Int) : Nat × Bool :=
  let num := if 0 ≤ p then n else n * 2 ^ (-p).toNat
  let den := if 0 ≤ p then d * 2 ^ p.toNat else d
  (roundHalfEven num den, num % den = 0)

/-- Model of `std::stod` up to the conversion to a rational: the sign and the
value as a fraction `(negative, numerator, denominator)`. Leading white space is
skipped, a sign and the longest decimal or hexadecimal number are read, and the
number is rounded to the nearest `double` (53 significant bits, ties to even,
the spacing `2 ^ -1074` below the normal range). No number is
`invalid_argument`. `strtod` reports `ERANGE`, which `std::stod` turns into
`out_of_range`, when the rounded magnitude reaches `2 ^ 1024` and when the
result is below the least normal `double` `2 ^ -1022` and was rounded. (For a
few hexadecimal numbers below the normal range glibc leaves that report out;
the model makes it.) Infinities and NaN have no value among the rationals and
are `unsupported`. -/
def stodParts (s : String) : Except Exn (Bool × Nat × Nat) :=
  let (neg, cs) := takeSign (s.data.dropWhile isSpace)
  if isInfOrNan cs then .error (.unsupported "stod")
  else match parseNumber cs with
    | none => .error (.invalidArgument "stod")
    | some (n, d) =>
      if n = 0 then .ok (neg, 0, 1)
      else
        let e := binExponent n d
        let normal := (floorLog2 (roundAt n d (e - 52)).1 : Int) + (e - 52)
        let p := max (e - 52) (-1074)
        let r := roundAt n d p
        if 1024 ≤ normal then .error (.outOfRange "stod")
        else if normal < -1022 ∧ r.2 = false then .error (.outOfRange "stod")
        else .ok (neg, (scaled 2 r.1 p).1, (scaled 2 r.1 p).2)

/-- The rational a sign and a fraction denote. -/
def fracToRat (p : Bool × Nat × Nat) : ℚ :=
  if p.1 then -((p.2.1 : ℚ) / (p.2.2 : ℚ)) else (p.2.1 : ℚ) / (p.2.2 : ℚ)

/-- Model of `std::stod`. -/
def stod (s : String) : Except Exn ℚ :=
  match stodParts s with
  | .ok p => .ok (fracToRat p)
  | .error e => .error e

/-! ## `split` -/

/-- The loop of `split`: `cur` is the token being read. A delimiter closes the
token; at the end of the text a token is pushed only when `std::getline`
extracted something, so the empty token after a final delimiter is dropped. -/
def splitAux (delimiter : Char) : List Char → List Char → List (List Char)
  | [], cur => if cur.isEmpty then [] else [cur]
  | c :: cs, cur =>
    if c = delimiter then cur :: splitAux delimiter cs []
    else splitAux delimiter cs (cur ++ [c])

/-- Model of `split(str, delimiter)`: the tokens `std::getline` yields. -/
def split (str : String) (delimiter : Char) : List String :=
  (splitAux delimiter str.data []).map String.mk

/-! ## Products -/

/-- The fields a derived class adds to `Product`. -/
inductive Variant where
  | clothing (size color material : String)
  | stationery (brand itemType : String)
  | accessory (isElectronic : Bool) (accessoryType : String)
  deriving DecidableEq, Repr

/-- A `Product` object: the base-class fields and those of its dynamic type. -/
structure Product where
  productId : String
  name : String
  category : String
  price : ℚ
  stock : Int
  variant : Variant
  deriving DecidableEq, Repr

/-- Constructor `Product::Product`, threading the static counter `totalProducts`:
the object built or the exception thrown, and the counter afterwards. A negative
price throws before the counter is touched, and the destructor of an object
whose construction threw does not run. -/
def Product.init (totalProducts : Int) (id n cat : String) (p : ℚ) (s : Int) (v : Variant) :
    Except Exn Product × Int :=
  if p < 0 then (.error (.invalidPrice p), totalProducts)
  else (.ok { productId := id, name := n, category := cat, price := p, stock := s, variant := v },
    totalProducts + 1)

/-- The object `Clothing()` builds from its default arguments. -/
def Clothing.default : Product :=
  { productId := "", name := "", category := "Clothing", price := 0, stock := 0,
    variant := .clothing "" "" "" }

/-- The object `Stationery()` builds from its default arguments. -/
def Stationery.default : Product :=
  { productId := "", name := "", category := "Stationery", price := 0, stock := 0,
    variant := .stationery "" "" }

/-- The object `Accessory()` builds from its default arguments. -/
def Accessory.default : Product :=
  { productId := "", name := "", category := "Accessory", price := 0, stock := 0,
    variant := .accessory false "" }

/-- Method `getType`. -/
def Product.getType (p : Product) : String :=
  match p.variant with
  | .clothing _ _ _ => "Clothing"
  | .stationery _ _ => "Stationery"
  | .accessory _ _ => "Accessory"

/-- Method `Product::setPrice`. -/
def Product.setPrice (p : Product) (newPrice : ℚ) : Outcome Product :=
  if newPrice < 0 then ⟨some (.invalidPrice newPrice), p⟩
  else ⟨none, { p with price := newPrice }⟩

/-- Method `Product::updateStock`: the sum `stock + quantity` and the negation
`-quantity` are computed in `int`. -/
def Product.updateStock (p : Product) (quantity : Int) : Outcome Product :=
  let newStock := addInt p.stock quantity
  if newStock < 0 then ⟨some (.insufficientStock p.name (negInt quantity) p.stock), p⟩
  else ⟨none, { p with stock := newStock }⟩

/-- The text `"tag,id,name,price,stock"` every `toCSV` starts with. -/
def Product.csvHead (tag : String) (p : Product) : String :=
  tag ++ "," ++ p.productId ++ "," ++ p.name ++ "," ++ String.mk (showDouble p.price) ++ ","
    ++ String.mk (showInt p.stock)

/-- Virtual method `toCSV` (`Clothing::toCSV`, `Stationery::toCSV`, `Accessory::toCSV`). -/
def Product.toCSV (p : Product) : String :=
  match p.variant with
  | .clothing size color material =>
    p.csvHead "Clothing" ++ "," ++ size ++ "," ++ color ++ "," ++ material
  | .stationery brand itemType =>
    p.csvHead "Stationery" ++ "," ++ brand ++ "," ++ itemType
  | .accessory isElectronic accessoryType =>
    p.csvHead "Accessory" ++ "," ++ (if isElectronic then "1" else "0") ++ "," ++ accessoryType

/-- The assignments of a `fromCSV` body once its guard has passed, in the
source's order: id, name, price (`std::stod`), stock (`std::stoi`), then the
fields of the derived class. A conversion that throws leaves the object with
the fields assigned before it. -/
def Product.assignTokens (p : Product) (tokens : List String) (v : Variant) : Outcome Product :=
  let p1 := { p with productId := tokens.getD 1 "", name := tokens.getD 2 "" }
  match stod (tokens.getD 3 "") with
  | .error e => ⟨some e, p1⟩
  | .ok price =>
    let p2 := { p1 with price := price }
    match stoi (tokens.getD 4 "") with
    | .error e => ⟨some e, p2⟩
    | .ok stock => ⟨none, { p2 with stock := stock, variant := v }⟩

/-- Virtual method `fromCSV` (`Clothing::fromCSV`, `Stationery::fromCSV`,
`Accessory::fromCSV`): a line with too few tokens or another tag leaves the
object as it is. -/
def Product.fromCSV (p : Product) (csvLine : String) : Outcome Product :=
  let tokens := split csvLine ','
  match p.variant with
  | .clothing _ _ _ =>
    if 8 ≤ tokens.length ∧ tokens.getD 0 "" = "Clothing" then
      p.assignTokens tokens (.clothing (tokens.getD 5 "") (tokens.getD 6 "") (tokens.getD 7 ""))
    else ⟨none, p⟩
  | .stationery _ _ =>
    if 7 ≤ tokens.length ∧ tokens.getD 0 "" = "Stationery" then
      p.assignTokens tokens (.stationery (tokens.getD 5 "") (tokens.getD 6 ""))
    else ⟨none, p⟩
  | .accessory _ _ =>
    if 7 ≤ tokens.length ∧ tokens.getD 0 "" = "Accessory" then
      p.assignTokens tokens (.accessory (tokens.getD 5 "" == "1") (tokens.getD 6 ""))
    else ⟨none, p⟩

/-! ## Inventory -/

/-- The class `Inventory<Product*>`: the products in container order. -/
structure Inventory where
  products : List Product
  inventoryName : String
  deriving DecidableEq, Repr

/-- The product a `Product*` points to. A reference outside the container has no
pointee in the source (undefined behaviour); the model then answers with an
empty `Clothing`, and the theorems only dereference valid references. -/
def deref (products : List Product) (product : Nat) : Product :=
  products.getD product Clothing.default

/-- Method `Inventory::findProduct`: the reference to the first product with
the id, `none` for `nullptr`. -/
def Inventory.findProduct (inv : Inventory) (id : String) : Option Nat :=
  let i := inv.products.findIdx (fun p => p.productId == id)
  if i < inv.products.length then some i else none

/-- Method `Inventory::saveToFile`: the contents written to the file, one line per
product; `canOpen` tells whether the file could be opened for writing. -/
def Inventory.saveToFile (inv : Inventory) (filename : String) (canOpen : Bool) :
    Except Exn String :=
  if canOpen then .ok (String.join (inv.products.map (fun p => p.toCSV ++ "\n")))
  else .error (.fileIOError filename "save")

/-- The object `loadFromFile` allocates for a type tag, if it knows the tag. -/
def newByTag (type : String) : Option Product :=
  if type = "Clothing" then some Clothing.default
  else if type = "Stationery" then some Stationery.default
  else if type = "Accessory" then some Accessory.default
  else none

/-- The read loop of `Inventory::loadFromFile` over the lines of the file;
`products` is the container so far. An exception of `fromCSV` ends the loop
before the object is pushed. -/
def loadLines : List String → List Product → Outcome (List Product)
  | [], products => ⟨none, products⟩
  | line :: rest, products =>
    if line.data.isEmpty then loadLines rest products
    else
      let tokens := split line ','
      if tokens.isEmpty then loadLines rest products
      else
        match newByTag (tokens.getD 0 "") with
        | none => loadLines rest products
        | some product =>
          match product.fromCSV line with
          | ⟨some e, _⟩ => ⟨some e, products⟩
          | ⟨none, loaded⟩ => loadLines rest (products ++ [loaded])

/-- Method `Inventory::loadFromFile`; `file` is the contents of the file, `none`
when it cannot be opened. -/
def Inventory.loadFromFile (inv : Inventory) (file : Option String) : Outcome Inventory :=
  match file with
  | none => ⟨none, inv⟩
  | some contents =>
    let r := loadLines (split contents '\n') []
    ⟨r.thrown, { inv with products := r.state }⟩

/-! ## Orders -/

/-- The class `OrderItem`; `product` is the `Product*`. -/
structure OrderItem where
  product : Nat
  quantity : Int
  unitPrice : ℚ
  deriving DecidableEq, Repr

/-- Constructor `OrderItem::OrderItem`: the unit price is the price the product
has now. -/
def OrderItem.init (products : List Product) (p : Nat) (qty : Int) : OrderItem :=
  { product := p, quantity := qty, unitPrice := (deref products p).price }

/-- Method `OrderItem::getTotal`. -/
def OrderItem.getTotal (item : OrderItem) : ℚ := item.unitPrice * (item.quantity : ℚ)

/-- Method `OrderItem::toCSV`. -/
def OrderItem.toCSV (products : List Product) (item : OrderItem) : String :=
  (deref products item.product).productId ++ "," ++ String.mk (showInt item.quantity) ++ ","
    ++ String.mk (showDouble item.unitPrice)

/-- The class `Order`; the static `orderCounter` is threaded through the
functions that touch it. -/
structure Order where
  orderId : Int
  customerName : String
  items : List OrderItem
  totalAmount : ℚ
  orderDate : Int
  deriving DecidableEq, Repr

/-- The initial value of the static `Order::orderCounter`. -/
def orderCounterInit : Int := 1000

/-- Constructor `Order::Order`: the new order and the incremented counter
(`orderId = ++orderCounter`, an increment in `int`); `now` is what
`time(nullptr)` returns. -/
def Order.init (orderCounter : Int) (customer : String) (now : Int) : Order × Int :=
  ({ orderId := addInt orderCounter 1, customerName := customer, items := [], totalAmount := 0,
     orderDate := now }, addInt orderCounter 1)

/-- Method `Order::addItem` on the order and the container the product lives in.
The quantity is positive where it is negated, so `-quantity` is the negation of
the integers. -/
def Order.addItem (o : Order) (products : List Product) (product : Nat) (quantity : Int) :
    Outcome (Order × List Product) :=
  if quantity ≤ 0 then ⟨some (.invalidArgument "Quantity must be positive"), (o, products)⟩
  else if (deref products product).stock < quantity then
    ⟨some (.insufficientStock (deref products product).name quantity
      (deref products product).stock), (o, products)⟩
  else
    let item := OrderItem.init products product quantity
    let o1 := { o with items := o.items ++ [item], totalAmount := o.totalAmount + item.getTotal }
    let r := (deref products product).updateStock (-quantity)
    ⟨r.thrown, (o1, products.set product r.state)⟩

/-- Method `Order::toCSV`. -/
def Order.toCSV (products : List Product) (o : Order) : String :=
  String.mk (showInt o.orderId) ++ "," ++ o.customerName ++ ","
    ++ String.mk (showDouble o.totalAmount) ++ "," ++ String.mk (showInt o.orderDate) ++ ","
    ++ String.mk (showNat o.items.length)
    ++ String.join (o.items.map (fun item => "," ++ item.toCSV products))

/-- The item loop of `Order::fromCSV`: `n` iterations are left, `index` is the
position of the next group, `items` the item list so far. A group that does not
fit in the tokens is passed over without moving `index`. -/
def Order.readItems (tokens : List String) (inventory : Inventory) :
    Nat → Nat → List OrderItem → Outcome (List OrderItem)
  | 0, _, items => ⟨none, items⟩
  | n + 1, index, items =>
    if index + 2 < tokens.length then
      match stoi (tokens.getD (index + 1) "") with
      | .error e => ⟨some e, items⟩
      | .ok quantity =>
        match inventory.findProduct (tokens.getD index "") with
        | some product =>
          Order.readItems tokens inventory n (index + 3)
            (items ++ [OrderItem.init inventory.products product quantity])
        | none => Order.readItems tokens inventory n (index + 3) items
    else Order.readItems tokens inventory n index items

/-- Method `Order::fromCSV` on the order and the static counter. The fields are
assigned in the source's order; a conversion that throws leaves those assigned
before it, and the counter is raised only when the whole line has been read. -/
def Order.fromCSV (o : Order) (orderCounter : Int) (csvLine : String) (inventory : Inventory) :
    Outcome (Order × Int) :=
  let tokens := split csvLine ','
  if 5 ≤ tokens.length then
    match stoi (tokens.getD 0 "") with
    | .error e => ⟨some e, (o, orderCounter)⟩
    | .ok orderId =>
      let o1 := { o with orderId := orderId, customerName := tokens.getD 1 "" }
      match stod (tokens.getD 2 "") with
      | .error e => ⟨some e, (o1, orderCounter)⟩
      | .ok totalAmount =>
        let o2 := { o1 with totalAmount := totalAmount }
        match stol (tokens.getD 3 "") with
        | .error e => ⟨some e, (o2, orderCounter)⟩
        | .ok orderDate =>
          let o3 := { o2 with orderDate := orderDate }
          match stoi (tokens.getD 4 "") with
          | .error e => ⟨some e, (o3, orderCounter)⟩
          | .ok itemCount =>
            let r := Order.readItems tokens inventory itemCount.toNat 5 o3.items
            let o4 := { o3 with items := r.state }
            match r.thrown with
            | some e => ⟨some e, (o4, orderCounter)⟩
            | none => ⟨none, (o4, if orderId > orderCounter then orderId else orderCounter)⟩
  else ⟨none, (o, orderCounter)⟩

/-! ## Application -/

/-- The state of `iShopApp` with the static `Order::orderCounter`. -/
structure App where
  mainInventory : Inventory
  orders : List Order
  orderCounter : Int
  deriving DecidableEq, Repr

/-- The read loop of `iShopApp::loadOrdersFromFile`: every non-empty line
constructs an `Order` (taking an id from the counter), decodes the line into it
and pushes it. `clock k` is what `time(nullptr)` returns at the `k`-th line. -/
def loadOrderLines (inventory : Inventory) (clock : Nat → Int) :
    List String → Nat → List Order → Int → Outcome (List Order × Int)
  | [], _, orders, counter => ⟨none, (orders, counter)⟩
  | line :: rest, k, orders, counter =>
    if line.data.isEmpty then loadOrderLines inventory clock rest (k + 1) orders counter
    else
      let fresh := Order.init counter "" (clock k)
      let r := fresh.1.fromCSV fresh.2 line inventory
      match r.thrown with
      | some e => ⟨some e, (orders, r.state.2)⟩
      | none => loadOrderLines inventory clock rest (k + 1) (orders ++ [r.state.1]) r.state.2

/-- Method `iShopApp::loadOrdersFromFile`; `file` is the contents of the file,
`none` when it cannot be opened. -/
def App.loadOrdersFromFile (app : App) (file : Option String) (clock : Nat → Int) :
    Outcome App :=
  match file with
  | none => ⟨none, app⟩
  | some contents =>
    let r := loadOrderLines app.mainInventory clock (split contents '\n') 0 [] app.orderCounter
    ⟨r.thrown, { app with orders := r.state.1, orderCounter := r.state.2 }⟩

/-- The part of `iShopApp::createOrder` that constructs the order. -/
def App.newOrder (app : App) (customerName : String) (now : Int) : Order × App :=
  let r := Order.init app.orderCounter customerName now
  (r.1, { app with orderCounter := r.2 })

/-! ## Vocabulary of the properties -/

/-- The characters numeric text is made of. -/
def numChars : List Char := "0123456789.e+-".data

/-- The text of fields `fs` and a last field, each field of `fs` followed by the
delimiter. -/
def joinFields (d : Char) : List (List Char) → List Char → List Char
  | [], last => last
  | f :: fs, last => f ++ d :: joinFields d fs last

/-- The text fields a derived class adds. -/
def Variant.texts : Variant → List String
  | .clothing size color material => [size, color, material]
  | .stationery brand itemType => [brand, itemType]
  | .accessory _ accessoryType => [accessoryType]

/-- The field a `toCSV` line ends with. -/
def Variant.lastField : Variant → String
  | .clothing _ _ material => material
  | .stationery _ itemType => itemType
  | .accessory _ accessoryType => accessoryType

/-- The default-constructed object of the class the fields belong to. -/
def Variant.defaultProduct : Variant → Product
  | .clothing _ _ _ => Clothing.default
  | .stationery _ _ => Stationery.default
  | .accessory _ _ => Accessory.default

/-- No text field of the product holds the character `c`. -/
def Product.freeOf (c : Char) (p : Product) : Prop :=
  ∀ s ∈ p.productId :: p.name :: p.variant.texts, c ∉ s.data

instance (c : Char) (p : Product) : Decidable (p.freeOf c) := by
  unfold Product.freeOf; infer_instance

/-- Product `q` has the id, name, price, stock and derived-class fields of `p`. -/
def Product.sameFields (p q : Product) : Prop :=
  q.productId = p.productId ∧ q.name = p.name ∧ q.price = p.price ∧ q.stock = p.stock ∧
    q.variant = p.variant

instance (p q : Product) : Decidable (p.sameFields q) := by
  unfold Product.sameFields; infer_instance

/-- A `Clothing` whose price has seven significant digits. -/
def preciseShirt : Product :=
  { productId := "C1", name := "Shirt", category := "Clothing", price := 1234567, stock := 5,
    variant := .clothing "M" "Red" "Cotton" }

/-- A `Clothing` built without a material (the constructor default). -/
def plainShirt : Product :=
  { productId := "C1", name := "Shirt", category := "Clothing", price := 20, stock := 5,
    variant := .clothing "M" "Red" "" }

/-- A `Clothing` with every field filled in. -/
def cottonShirt : Product :=
  { productId := "C1", name := "Shirt", category := "Clothing", price := 20, stock := 5,
    variant := .clothing "M" "Red" "Cotton" }

/-- A `Stationery` product. -/
def inkPen : Product :=
  { productId := "S1", name := "Pen", category := "Stationery", price := 1999 / 100, stock := 3,
    variant := .stationery "Dollar" "Ink" }

/-- An `Accessory` product. -/
def usbCable : Product :=
  { productId := "A1", name := "Cable", category := "Accessory", price := 10, stock := 2,
    variant := .accessory true "USB" }

/-- The product as `fromCSV` rebuilds it: the category is that of the class. -/
def Product.decoded (p : Product) : Product := { p with category := p.getType }

/-- Sum of the line totals `unitPrice * quantity` of the items of the order. -/
def Order.itemsTotal (o : Order) : ℚ := (o.items.map OrderItem.getTotal).sum

/-- A call the application makes on its orders and products. `addItem` names the
order by its position in the order list; the caller catches what a call throws,
as `createOrder` does, and goes on with the objects as the call left them. -/
inductive Call where
  | createOrder (customerName : String) (now : Int)
  | addItem (order product : Nat) (quantity : Int)
  | setPrice (product : Nat) (newPrice : ℚ)
  | updateStock (product : Nat) (quantity : Int)
  deriving DecidableEq, Repr

/-- The state after one call. A call on an order or product that does not exist
changes nothing. -/
def Call.run (app : App) : Call → App
  | .createOrder customerName now =>
    let r := Order.init app.orderCounter customerName now
    { app with orders := app.orders ++ [r.1], orderCounter := r.2 }
  | .addItem order product quantity =>
    match app.orders.get? order with
    | none => app
    | some o =>
      let r := o.addItem app.mainInventory.products product quantity
      { app with orders := app.orders.set order r.state.1,
                 mainInventory := { app.mainInventory with products := r.state.2 } }
  | .setPrice product newPrice =>
    match app.mainInventory.products.get? product with
    | none => app
    | some p =>
      { app with mainInventory := { app.mainInventory with
          products := app.mainInventory.products.set product (p.setPrice newPrice).state } }
  | .updateStock product quantity =>
    match app.mainInventory.products.get? product with
    | none => app
    | some p =>
      { app with mainInventory := { app.mainInventory with
          products := app.mainInventory.products.set product (p.updateStock quantity).state } }

/-- The state after a sequence of calls. -/
def runCalls (app : App) (calls : List Call) : App := calls.foldl Call.run app

/-- A shop with one product, `Clothing` C1 at price 20 with 5 in stock, and no order. -/
def oneShirtShop : App :=
  { mainInventory := { products := [cottonShirt], inventoryName := "iShop" }, orders := [],
    orderCounter := orderCounterInit }

/-- The shop after an order of Bob for 3 shirts. -/
def shopAfterSale : App :=
  runCalls oneShirtShop [.createOrder "Bob" 1700000000, .addItem 0 0 3]

/-- The shop after that sale and a later change of the price of the shirt to 30. -/
def shopRepriced : App := Call.run shopAfterSale (.setPrice 0 30)

/-- The order of Bob. -/
def bobOrder : Order := shopAfterSale.orders.getD 0 (Order.init 0 "" 0).1

/-- A products file: a full line, an empty line, a line with an unknown tag, a
`Clothing` line of two fields and a full `Accessory` line. -/
def mixedFile : String :=
  "Clothing,C1,Shirt,20,5,M,Red,Cotton\n\nBook,B1,Novel\nClothing,C2\nAccessory,A1,Cable,10,2,1,USB\n"

/-! ## Discounts, constructors and container queries -/

/-- Method `Product::calculateDiscountedPrice`, the base-class body. -/
def Product.baseDiscountedPrice (p : Product) (discount : ℚ) : Except Exn ℚ :=
  if discount < 0 ∨ discount > 100 then .error (.invalidDiscount discount)
  else .ok (p.price * (1 - discount / 100))

/-- Virtual method `calculateDiscountedPrice`: `Accessory` overrides it and adds
5 to the discount of an accessory that is not electronic before it calls the
base-class body; `Clothing` and `Stationery` inherit the base-class body. -/
def Product.calculateDiscountedPrice (p : Product) (discount : ℚ) : Except Exn ℚ :=
  match p.variant with
  | .accessory isElectronic _ =>
    let baseDiscount := if !isElectronic then discount + 5 else discount
    p.baseDiscountedPrice baseDiscount
  | _ => p.baseDiscountedPrice discount

/-- Constructor `Clothing::Clothing`, threading the static counter `totalProducts`. -/
def Clothing.init (totalProducts : Int) (id n : String) (p : ℚ) (s : Int)
    (sz col mat : String) : Except Exn Product × Int :=
  Product.init totalProducts id n "Clothing" p s (.clothing sz col mat)

/-- Constructor `Stationery::Stationery`, threading the static counter `totalProducts`. -/
def Stationery.init (totalProducts : Int) (id n : String) (p : ℚ) (s : Int)
    (br type : String) : Except Exn Product × Int :=
  Product.init totalProducts id n "Stationery" p s (.stationery br type)

/-- Constructor `Accessory::Accessory`, threading the static counter `totalProducts`. -/
def Accessory.init (totalProducts : Int) (id n : String) (p : ℚ) (s : Int)
    (electronic : Bool) (type : String) : Except Exn Product × Int :=
  Product.init totalProducts id n "Accessory" p s (.accessory electronic type)

/-- The loop of `std::remove_if` on a vector: `scan` is the part of the range not
yet visited, `v` the vector and `first` the position the next kept element is
moved to. An element that the predicate rejects is passed over. The elements
are read from the range as it was, which is what the vector still holds at the
positions not yet visited. -/
def removeIfLoop {α : Type} (pred : α → Bool) : List α → List α → Nat → List α × Nat
  | [], v, first => (v, first)
  | x :: scan, v, first =>
    if pred x then removeIfLoop pred scan v first
    else removeIfLoop pred scan (v.set first x) (first + 1)

/-- Model of `std::remove_if(v.begin(), v.end(), pred)`: the vector after the
moves and the position of the returned iterator. -/
def removeIf {α : Type} (pred : α → Bool) (v : List α) : List α × Nat :=
  removeIfLoop pred v v 0

/-- Method `Inventory::removeProduct`: the inventory afterwards and the text
printed. -/
def Inventory.removeProduct (inv : Inventory) (id : String) : Inventory × String :=
  let r := removeIf (fun p : Product => p.productId == id) inv.products
  if r.2 ≠ inv.products.length then
    ({ inv with products := r.1.take r.2 }, "Product " ++ id ++ " removed successfully.\n")
  else (inv, "Product not found.\n")

/-- The loop of `std::copy_if` into a `std::back_inserter`: `result` is the
vector filled so far. -/
def copyIf {α : Type} (condition : α → Bool) : List α → List α → List α
  | [], result => result
  | x :: rest, result =>
    if condition x then copyIf condition rest (result ++ [x]) else copyIf condition rest result

/-- Method `Inventory::filterProducts`: the inventory afterwards and the vector
returned. -/
def Inventory.filterProducts (inv : Inventory) (condition : Product → Bool) :
    Inventory × List Product :=
  (inv, copyIf condition inv.products [])

/-- Method `Inventory::getTotalStock`: `std::accumulate` from the `int` 0, each
step the `int` sum `sum + p->getStock()`. -/
def Inventory.getTotalStock (inv : Inventory) : Int :=
  inv.products.foldl (fun sum p => addInt sum p.stock) 0

/-- Method `Inventory::getTotalValue`: `std::accumulate` from 0.0. -/
def Inventory.getTotalValue (inv : Inventory) : ℚ :=
  inv.products.foldl (fun sum p => sum + p.price * (p.stock : ℚ)) 0

/-- An `Accessory` that is not electronic, at price 200. -/
def leatherBelt : Product :=
  { productId := "A2", name := "Belt", category := "Accessory", price := 200, stock := 4,
    variant := .accessory false "Leather" }

/-- An inventory of two products, (price 10, stock 2) and (price 5, stock 3). -/
def twoItemInventory : Inventory :=
  { products := [usbCable, { inkPen with price := 5 }], inventoryName := "iShop" }

/-- An inventory in which the id C1 occurs twice. -/
def doubledInventory : Inventory :=
  { products := [inkPen, cottonShirt, usbCable, plainShirt], inventoryName := "iShop" }

/-! ## Statistics, reserved stock and checked indexing -/

/-- The loop of `std::max_element`: `i` is the position of the element visited
next, `largest` the position of the greatest element so far and `top` that
element; a later element takes its place only when `top` is less than it. -/
def maxElementLoop {α : Type} (less : α → α → Bool) : List α → Nat → Nat → α → Nat
  | [], _, largest, _ => largest
  | x :: rest, i, largest, top =>
    if less top x then maxElementLoop less rest (i + 1) i x
    else maxElementLoop less rest (i + 1) largest top

/-- Model of `std::max_element(v.begin(), v.end(), less)`: the position of the
iterator returned, `none` for `end()` on an empty range. -/
def maxElement {α : Type} (less : α → α → Bool) : List α → Option Nat
  | [] => none
  | x :: rest => some (maxElementLoop less rest 1 0 x)

/-- The product `InventoryStatistics::generateReport` prints as the most
expensive one: the report ends early on an empty inventory, else it is what
`std::max_element` finds with prices compared by `<`. -/
def InventoryStatistics.mostExpensive (inventory : Inventory) : Option Nat :=
  if inventory.products.isEmpty then none
  else maxElement (fun a b : Product => decide (a.price < b.price)) inventory.products

/-- An item group of an order line: the three tokens and the quantity the second
one stands for. -/
structure ItemGroup where
  productId : String
  quantityText : String
  quantity : Int
  unitPriceText : String
  deriving DecidableEq, Repr

/-- The tokens of an item group. -/
def ItemGroup.tokens (g : ItemGroup) : List String :=
  [g.productId, g.quantityText, g.unitPriceText]

/-- The item `Order::fromCSV` makes of a group: none when the inventory has no
product with the id, else the product found, the quantity and the price the
product has now. -/
def ItemGroup.decode (inventory : Inventory) (g : ItemGroup) : Option OrderItem :=
  (inventory.findProduct g.productId).map
    (fun product => OrderItem.init inventory.products product g.quantity)

/-- The quantity the items of the order hold of the product at position `i`. -/
def Order.reserved (i : Nat) (o : Order) : Int :=
  ((o.items.filter (fun item => item.product == i)).map (fun item => item.quantity)).sum

/-- The quantity the items of all orders hold of the product at position `i`. -/
def reservedQuantity (orders : List Order) (i : Nat) : Int :=
  (orders.map (Order.reserved i)).sum

/-- The number of non-empty lines: the orders that `loadOrdersFromFile` constructs
when it reads the lines to the end. -/
def nonEmptyLines : List String → Nat
  | [] => 0
  | line :: rest => if line.data.isEmpty then nonEmptyLines rest else nonEmptyLines rest + 1

/-- The number of orders the calls construct. -/
def constructions : List Call → Nat
  | [] => 0
  | .createOrder _ _ :: calls => constructions calls + 1
  | _ :: calls => constructions calls

/-- The shirt with the greatest `int`, 2147483647, in stock. -/
def fullShirt : Product := { cottonShirt with stock := 2147483647 }

/-- An inventory of two products with 2147483647 in stock each. -/
def fullInventory : Inventory :=
  { products := [fullShirt, { usbCable with stock := 2147483647 }], inventoryName := "iShop" }

/-- The call constructs an order or adds an item to one. -/
def Call.isOrdering : Call → Bool
  | .createOrder _ _ => true
  | .addItem _ _ _ => true
  | _ => false

/-- The item loop of `Order::fromCSV` with every `tokens[...]` checked: `none`
when a position outside the token list is read. -/
def Order.readItemsChecked (tokens : List String) (inventory : Inventory) :
    Nat → Nat → List OrderItem → Option (Outcome (List OrderItem))
  | 0, _, items => some ⟨none, items⟩
  | n + 1, index, items =>
    if index + 2 < tokens.length then
      match tokens[index]? with
      | none => none
      | some productId =>
        match tokens[index + 1]? with
        | none => none
        | some quantityText =>
          match stoi quantityText with
          | .error e => some ⟨some e, items⟩
          | .ok quantity =>
            match inventory.findProduct productId with
            | some product =>
              Order.readItemsChecked tokens inventory n (index + 3)
                (items ++ [OrderItem.init inventory.products product quantity])
            | none => Order.readItemsChecked tokens inventory n (index + 3) items
    else Order.readItemsChecked tokens inventory n index items

/-- Method `Order::fromCSV` with every `tokens[...]` checked, the reads in the
source's order: `none` when a position outside the token list is read. -/
def Order.fromCSVChecked (o : Order) (orderCounter : Int) (csvLine : String)
    (inventory : Inventory) : Option (Outcome (Order × Int)) :=
  let tokens := split csvLine ','
  if 5 ≤ tokens.length then
    match tokens[0]? with
    | none => none
    | some t0 =>
    match stoi t0 with
    | .error e => some ⟨some e, (o, orderCounter)⟩
    | .ok orderId =>
      match tokens[1]? with
      | none => none
      | some t1 =>
      let o1 := { o with orderId := orderId, customerName := t1 }
      match tokens[2]? with
      | none => none
      | some t2 =>
      match stod t2 with
      | .error e => some ⟨some e, (o1, orderCounter)⟩
      | .ok totalAmount =>
        let o2 := { o1 with totalAmount := totalAmount }
        match tokens[3]? with
        | none => none
        | some t3 =>
        match stol t3 with
        | .error e => some ⟨some e, (o2, orderCounter)⟩
        | .ok orderDate =>
          let o3 := { o2 with orderDate := orderDate }
          match tokens[4]? with
          | none => none
          | some t4 =>
          match stoi t4 with
          | .error e => some ⟨some e, (o3, orderCounter)⟩
          | .ok itemCount =>
            match Order.readItemsChecked tokens inventory itemCount.toNat 5 o3.items with
            | none => none
            | some r =>
              let o4 := { o3 with items := r.state }
              match r.thrown with
              | some e => some ⟨some e, (o4, orderCounter)⟩
              | none =>
                some ⟨none, (o4, if orderId > orderCounter then orderId else orderCounter)⟩
  else some ⟨none, (o, orderCounter)⟩

/-- An inventory with two products at the greatest price, 20, at positions 1 and 3. -/
def tiedInventory : Inventory :=
  { products := [usbCable, cottonShirt, inkPen, plainShirt], inventoryName := "iShop" }

/-! ## Lemmas on `int` arithmetic -/

/-- An `int` is what the machine keeps of it. -/
theorem wrapInt32_eq (i : Int) (h : isInt32 i) : wrapInt32 i = i := by
  unfold wrapInt32
  unfold isInt32 at h
  omega

/-- A sum that is an `int` is computed exactly. -/
theorem addInt_eq (a b : Int) (h : isInt32 (a + b)) : addInt a b = a + b := by
  unfold addInt
  split
  · exact wrapInt32_eq _ h
  · rfl

/-- Every `int` but the least one is negated exactly. -/
theorem negInt_eq (a : Int) (h : a ≠ -2147483648) : negInt a = -a := by
  unfold negInt
  split
  · rename_i ha
    apply wrapInt32_eq
    unfold isInt32 at *
    omega
  · rfl

/-- A counter below the greatest `int` is incremented exactly. -/
theorem addInt_one (c : Int) (h : c < 2147483647) : addInt c 1 = c + 1 := by
  unfold addInt
  split
  · rename_i hc
    apply wrapInt32_eq
    unfold isInt32 at *
    omega
  · rfl

/-- Taking a positive quantity that is in stock off the stock is exact. -/
theorem addInt_neg (s q : Int) (hq : 0 < q) (hs : q ≤ s) : addInt s (-q) = s - q := by
  unfold addInt
  split
  · rename_i h
    rw [wrapInt32_eq]
    · omega
    · unfold isInt32 at *
      omega
  · omega

/-! ## Lemmas on numeric text -/

theorem digitChar_mem (d : Nat) (h : d < 10) : digitChar d ∈ numChars := by
  interval_cases d <;> decide

theorem digitChar_isDigit (d : Nat) (h : d < 10) : (digitChar d).isDigit = true := by
  interval_cases d <;> decide

theorem digitChar_val (d : Nat) (h : d < 10) : (digitChar d).toNat - 48 = d := by
  interval_cases d <;> decide

theorem digitChar_not_space (d : Nat) (h : d < 10) : isSpace (digitChar d) = false := by
  interval_cases d <;> decide

theorem digitChar_takeSign (d : Nat) (h : d < 10) (r : List Char) :
    takeSign (digitChar d :: r) = (false, digitChar d :: r) := by
  interval_cases d <;> rfl

theorem natDigitsFuel_digits (fuel n : Nat) :
    ∀ c ∈ natDigitsFuel fuel n, ∃ d, d < 10 ∧ c = digitChar d := by
  induction fuel generalizing n with
  | zero => intro c hc; simp [natDigitsFuel] at hc
  | succ k ih =>
    intro c hc
    unfold natDigitsFuel at hc
    split at hc
    · rename_i hlt
      simp only [List.mem_singleton] at hc
      exact ⟨n, hlt, hc⟩
    · rw [List.mem_append] at hc
      rcases hc with hc | hc
      · exact ih _ c hc
      · simp only [List.mem_singleton] at hc
        exact ⟨n % 10, Nat.mod_lt _ (by decide), hc⟩

theorem natDigitsFuel_ne_nil (fuel n : Nat) : natDigitsFuel (fuel + 1) n ≠ [] := by
  unfold natDigitsFuel
  split <;> simp

theorem parseNat_append_one (l : List Char) (c : Char) :
    parseNat (l ++ [c]) = 10 * parseNat l + (c.toNat - 48) := by
  simp [parseNat, List.foldl_append]

theorem parseNat_natDigitsFuel (fuel n : Nat) (h : n < fuel) :
    parseNat (natDigitsFuel fuel n) = n := by
  induction fuel generalizing n with
  | zero => omega
  | succ k ih =>
    unfold natDigitsFuel
    split
    · rename_i hlt
      simp [parseNat, digitChar_val n hlt]
    · rw [parseNat_append_one, ih (n / 10) (by omega), digitChar_val _ (Nat.mod_lt _ (by decide))]
      omega

theorem showNat_digits (n : Nat) : ∀ c ∈ showNat n, ∃ d, d < 10 ∧ c = digitChar d :=
  natDigitsFuel_digits _ _

theorem showNat_ne_nil (n : Nat) : showNat n ≠ [] := natDigitsFuel_ne_nil _ _

theorem parseNat_showNat (n : Nat) : parseNat (showNat n) = n :=
  parseNat_natDigitsFuel _ _ (by omega)

theorem showNat_mem_numChars (n : Nat) : ∀ c ∈ showNat n, c ∈ numChars := by
  intro c hc
  obtain ⟨d, hd, rfl⟩ := showNat_digits n c hc
  exact digitChar_mem d hd

theorem showNat_takeWhile (n : Nat) : (showNat n).takeWhile Char.isDigit = showNat n := by
  rw [List.takeWhile_eq_self_iff]
  intro c hc
  obtain ⟨d, hd, rfl⟩ := showNat_digits n c hc
  exact digitChar_isDigit d hd

theorem showNat_head (n : Nat) : ∃ d r, d < 10 ∧ showNat n = digitChar d :: r := by
  cases h : showNat n with
  | nil => exact absurd h (showNat_ne_nil n)
  | cons c r =>
    obtain ⟨d, hd, rfl⟩ := showNat_digits n c (by simp [h])
    exact ⟨d, r, hd, rfl⟩

theorem showInt_mem_numChars (i : Int) : ∀ c ∈ showInt i, c ∈ numChars := by
  intro c hc
  unfold showInt at hc
  split at hc
  · rcases List.mem_cons.1 hc with rfl | hc
    · decide
    · exact showNat_mem_numChars _ c hc
  · exact showNat_mem_numChars _ c hc

/-- Reading back the text of an integer within the range gives the integer. -/
theorem strtolChecked_showInt (fn : String) (lo hi i : Int) (hlo : lo ≤ i) (hhi : i ≤ hi) :
    strtolChecked fn lo hi (String.mk (showInt i)) = .ok i := by
  obtain ⟨d, r, hd, hshow⟩ := showNat_head i.natAbs
  have htw := showNat_takeWhile i.natAbs
  have hpn := parseNat_showNat i.natAbs
  have hne := showNat_ne_nil i.natAbs
  unfold strtolChecked showInt
  by_cases hneg : i < 0
  · have hdrop : List.dropWhile isSpace ('-' :: showNat i.natAbs) = '-' :: showNat i.natAbs := by
      rw [List.dropWhile_cons_of_neg (by decide)]
    simp only [hneg, if_true, hdrop, takeSign, htw, hpn]
    have hemp : (showNat i.natAbs).isEmpty = false := by
      cases h : showNat i.natAbs with
      | nil => exact absurd h hne
      | cons _ _ => rfl
    simp only [hemp, Bool.false_eq_true, if_false, if_true]
    have hv : -((i.natAbs : Nat) : Int) = i := by omega
    rw [hv]
    have : ¬ (i < lo ∨ hi < i) := by omega
    simp [this]
  · have hdrop : List.dropWhile isSpace (showNat i.natAbs) = showNat i.natAbs := by
      rw [hshow, List.dropWhile_cons_of_neg (by simp [digitChar_not_space d hd])]
    have hsign : takeSign (showNat i.natAbs) = (false, showNat i.natAbs) := by
      rw [hshow]; exact digitChar_takeSign d hd r
    simp only [hneg, if_false, hdrop, hsign, htw, hpn]
    have hemp : (showNat i.natAbs).isEmpty = false := by
      cases h : showNat i.natAbs with
      | nil => exact absurd h hne
      | cons _ _ => rfl
    simp only [hemp, Bool.false_eq_true, if_false]
    have hv : ((i.natAbs : Nat) : Int) = i := by omega
    rw [hv]
    have : ¬ (i < lo ∨ hi < i) := by omega
    simp [this]

theorem stripZeros_subset (cs : List Char) : ∀ c ∈ stripZeros cs, c ∈ cs := by
  intro c hc
  unfold stripZeros at hc
  rw [List.mem_reverse] at hc
  have := (List.dropWhile_sublist (fun c => c == '0')).subset hc
  simpa using this

theorem fracText_mem (cs : List Char) (h : ∀ c ∈ cs, c ∈ numChars) :
    ∀ c ∈ fracText cs, c ∈ numChars := by
  intro c hc
  unfold fracText at hc
  dsimp only at hc
  split at hc
  · simp at hc
  · rcases List.mem_cons.1 hc with rfl | hc
    · decide
    · exact h c (stripZeros_subset cs c hc)

theorem expText_mem (x : Int) : ∀ c ∈ expText x, c ∈ numChars := by
  intro c hc
  unfold expText at hc
  simp only at hc
  rcases List.mem_cons.1 hc with rfl | hc
  · decide
  rcases List.mem_cons.1 hc with rfl | hc
  · split <;> decide
  split at hc
  · rcases List.mem_cons.1 hc with rfl | hc
    · decide
    · exact showNat_mem_numChars _ c hc
  · exact showNat_mem_numChars _ c hc

theorem showSig_mem (m : Nat) (x : Int) : ∀ c ∈ showSig m x, c ∈ numChars := by
  intro c hc
  unfold showSig at hc
  simp only at hc
  split at hc
  · simp only [List.mem_append] at hc
    rcases hc with (hc | hc) | hc
    · exact showNat_mem_numChars _ c (List.mem_of_mem_take hc)
    · exact fracText_mem _ (fun c hc => showNat_mem_numChars _ c (List.mem_of_mem_drop hc)) c hc
    · exact expText_mem _ c hc
  · split at hc
    · simp only [List.mem_append] at hc
      rcases hc with hc | hc
      · exact showNat_mem_numChars _ c (List.mem_of_mem_take hc)
      · exact fracText_mem _ (fun c hc => showNat_mem_numChars _ c (List.mem_of_mem_drop hc)) c hc
    · rcases List.mem_cons.1 hc with rfl | hc
      · decide
      · refine fracText_mem _ ?_ c hc
        intro c hc
        rcases List.mem_append.1 hc with hc | hc
        · rw [List.mem_replicate] at hc
          rw [hc.2]; decide
        · exact showNat_mem_numChars _ c hc

theorem showPos_mem (n d : Nat) : ∀ c ∈ showPos n d, c ∈ numChars := by
  intro c hc
  unfold showPos at hc
  simp only at hc
  split at hc
  · exact showSig_mem _ _ c hc
  · exact showSig_mem _ _ c hc

theorem showDouble_mem_numChars (x : ℚ) : ∀ c ∈ showDouble x, c ∈ numChars := by
  intro c hc
  unfold showDouble at hc
  split at hc
  · simp only [List.mem_singleton] at hc
    rw [hc]; decide
  · split at hc
    · rcases List.mem_cons.1 hc with rfl | hc
      · decide
      · exact showPos_mem _ _ c hc
    · exact showPos_mem _ _ c hc

/-! ## Lemmas on `split` -/

theorem splitAux_field (d : Char) (f rest cur : List Char) (hf : d ∉ f) :
    splitAux d (f ++ d :: rest) cur = (cur ++ f) :: splitAux d rest [] := by
  induction f generalizing cur with
  | nil => simp [splitAux]
  | cons c cs ih =>
    have hc : c ≠ d := fun h => hf (by simp [h])
    have hcs : d ∉ cs := fun h => hf (by simp [h])
    rw [List.cons_append, splitAux, if_neg hc, ih _ hcs]
    simp

theorem splitAux_last (d : Char) (f cur : List Char) (hf : d ∉ f) (hne : cur ++ f ≠ []) :
    splitAux d f cur = [cur ++ f] := by
  induction f generalizing cur with
  | nil =>
    simp only [List.append_nil] at hne
    cases cur with
    | nil => exact absurd rfl hne
    | cons a as => simp [splitAux]
  | cons c cs ih =>
    have hc : c ≠ d := fun h => hf (by simp [h])
    have hcs : d ∉ cs := fun h => hf (by simp [h])
    simp only [splitAux, hc, if_false]
    rw [ih _ hcs (by simp)]
    simp

/-- Fields joined by a delimiter, as the `toCSV` methods write them. -/
theorem splitAux_joinFields (d : Char) (fs : List (List Char)) (last : List Char)
    (hfs : ∀ f ∈ fs, d ∉ f) (hlast : d ∉ last) (hne : last ≠ []) :
    splitAux d (joinFields d fs last) [] = fs ++ [last] := by
  induction fs with
  | nil => simpa [joinFields] using splitAux_last d last [] hlast (by simpa using hne)
  | cons f fs ih =>
    simp only [joinFields]
    rw [splitAux_field d f _ [] (hfs f (by simp)), ih (fun g hg => hfs g (by simp [hg]))]
    simp

theorem comma_not_numChar : ',' ∉ numChars := by decide

theorem newline_not_numChar : '\n' ∉ numChars := by decide

theorem showDouble_free (c : Char) (hc : c ∉ numChars) (x : ℚ) : c ∉ showDouble x :=
  fun h => hc (showDouble_mem_numChars x c h)

theorem showInt_free (c : Char) (hc : c ∉ numChars) (i : Int) : c ∉ showInt i :=
  fun h => hc (showInt_mem_numChars i c h)

theorem stoi_showInt (i : Int) (h : isInt32 i) : stoi (String.mk (showInt i)) = .ok i :=
  strtolChecked_showInt _ _ _ i h.1 h.2

/-- The tokens of a line made of comma-free fields of which the last is not empty. -/
theorem split_joinFields (d : Char) (fs : List (List Char)) (last : List Char)
    (hfs : ∀ f ∈ fs, d ∉ f) (hlast : d ∉ last) (hne : last ≠ []) :
    split (String.mk (joinFields d fs last)) d = (fs ++ [last]).map String.mk := by
  unfold split
  rw [splitAux_joinFields d fs last hfs hlast hne]

theorem Product.toCSV_eq_join (p : Product) :
    p.toCSV = String.mk (joinFields ','
      ([p.getType.data, p.productId.data, p.name.data, showDouble p.price, showInt p.stock] ++
        (match p.variant with
         | .clothing size color _ => [size.data, color.data]
         | .stationery brand _ => [brand.data]
         | .accessory isElectronic _ => [if isElectronic then ['1'] else ['0']]))
      p.variant.lastField.data) := by
  obtain ⟨id, name, cat, price, stock, v⟩ := p
  apply String.ext
  cases v with
  | clothing size color material =>
    simp [Product.toCSV, Product.csvHead, Product.getType, Variant.lastField, joinFields,
      String.data_append]
  | stationery brand itemType =>
    simp [Product.toCSV, Product.csvHead, Product.getType, Variant.lastField, joinFields,
      String.data_append]
  | accessory isElectronic accessoryType =>
    cases isElectronic <;>
    simp [Product.toCSV, Product.csvHead, Product.getType, Variant.lastField, joinFields,
      String.data_append]

/-- The tokens `split` finds in a `toCSV` line whose fields hold no comma and
whose last field is not empty. -/
theorem Product.split_toCSV (p : Product) (hfree : p.freeOf ',')
    (hlast : p.variant.lastField ≠ "") :
    split p.toCSV ',' =
      [p.getType, p.productId, p.name, String.mk (showDouble p.price),
        String.mk (showInt p.stock)] ++
        (match p.variant with
         | .clothing size color material => [size, color, material]
         | .stationery brand itemType => [brand, itemType]
         | .accessory isElectronic accessoryType =>
           [if isElectronic then "1" else "0", accessoryType]) := by
  rw [Product.toCSV_eq_join, split_joinFields]
  · obtain ⟨id, name, cat, price, stock, v⟩ := p
    cases v with
    | clothing size color material => simp [Variant.lastField]
    | stationery brand itemType => simp [Variant.lastField]
    | accessory isElectronic accessoryType => cases isElectronic <;> simp [Variant.lastField]
  · obtain ⟨id, name, cat, price, stock, v⟩ := p
    have h1 := hfree id (by simp)
    have h2 := hfree name (by simp)
    have h3 := showDouble_free ',' comma_not_numChar price
    have h4 := showInt_free ',' comma_not_numChar stock
    intro f hf
    cases v with
    | clothing size color material =>
      have h5 := hfree size (by simp [Variant.texts])
      have h6 := hfree color (by simp [Variant.texts])
      simp only [Product.getType, List.cons_append, List.nil_append, List.mem_cons,
        List.mem_singleton, List.not_mem_nil, or_false] at hf
      rcases hf with rfl | rfl | rfl | rfl | rfl | rfl | rfl
      · decide
      all_goals assumption
    | stationery brand itemType =>
      have h5 := hfree brand (by simp [Variant.texts])
      simp only [Product.getType, List.cons_append, List.nil_append, List.mem_cons,
        List.mem_singleton, List.not_mem_nil, or_false] at hf
      rcases hf with rfl | rfl | rfl | rfl | rfl | rfl
      · decide
      all_goals assumption
    | accessory isElectronic accessoryType =>
      simp only [Product.getType, List.cons_append, List.nil_append, List.mem_cons,
        List.mem_singleton, List.not_mem_nil, or_false] at hf
      rcases hf with rfl | rfl | rfl | rfl | rfl | rfl
      · decide
      · assumption
      · assumption
      · assumption
      · assumption
      · cases isElectronic <;> decide
  · obtain ⟨id, name, cat, price, stock, v⟩ := p
    cases v with
    | clothing size color material => exact hfree material (by simp [Variant.texts])
    | stationery brand itemType => exact hfree itemType (by simp [Variant.texts])
    | accessory isElectronic accessoryType => exact hfree accessoryType (by simp [Variant.texts])
  · intro h
    apply hlast
    apply String.ext
    simpa using h

theorem Product.assignTokens_ok (p0 : Product) (t0 t1 t2 t3 t4 : String) (rest : List String)
    (v : Variant) (price : ℚ) (stock : Int) (h3 : stod t3 = .ok price)
    (h4 : stoi t4 = .ok stock) :
    p0.assignTokens (t0 :: t1 :: t2 :: t3 :: t4 :: rest) v =
      ⟨none, { productId := t1, name := t2, category := p0.category,
               price := price, stock := stock, variant := v }⟩ := by
  unfold Product.assignTokens
  simp only [List.getD_cons_succ, List.getD_cons_zero, h3, h4]

/-- What `fromCSV` makes of the `toCSV` line of a product whose last field is not
empty: the id, the name, the stock and the fields of the class are those of the
product, and the price is what `std::stod` reads from the six-digit text of the
price. -/
theorem Product.fromCSV_toCSV_fields (p : Product) (q : ℚ) (hfree : p.freeOf ',')
    (hlast : p.variant.lastField ≠ "") (hprice : stod (String.mk (showDouble p.price)) = .ok q)
    (hstock : isInt32 p.stock) :
    p.variant.defaultProduct.fromCSV p.toCSV = ⟨none, { p.decoded with price := q }⟩ := by
  have hsplit := Product.split_toCSV p hfree hlast
  have hstoi := stoi_showInt p.stock hstock
  obtain ⟨id, name, cat, price, stock, v⟩ := p
  simp only at hprice hstoi
  cases v with
  | clothing size color material =>
    simp only [Product.getType, List.cons_append, List.nil_append] at hsplit
    unfold Product.fromCSV
    simp only [Variant.defaultProduct, Clothing.default, hsplit]
    rw [if_pos ⟨by simp, rfl⟩, Product.assignTokens_ok _ _ _ _ _ _ _ _ q stock hprice hstoi]
    rfl
  | stationery brand itemType =>
    simp only [Product.getType, List.cons_append, List.nil_append] at hsplit
    unfold Product.fromCSV
    simp only [Variant.defaultProduct, Stationery.default, hsplit]
    rw [if_pos ⟨by simp, rfl⟩, Product.assignTokens_ok _ _ _ _ _ _ _ _ q stock hprice hstoi]
    rfl
  | accessory isElectronic accessoryType =>
    simp only [Product.getType, List.cons_append, List.nil_append] at hsplit
    unfold Product.fromCSV
    simp only [Variant.defaultProduct, Accessory.default, hsplit]
    rw [if_pos ⟨by simp, rfl⟩, Product.assignTokens_ok _ _ _ _ _ _ _ _ q stock hprice hstoi]
    cases isElectronic <;> simp [Product.decoded, Product.getType]

/-- The six significant digits of the price text: the price 1234567 is written as
`1.23457e+06` and read back as 1234570; the other fields are restored. -/
theorem Product.fromCSV_toCSV_precision :
    preciseShirt.toCSV = "Clothing,C1,Shirt,1.23457e+06,5,M,Red,Cotton" ∧
    Clothing.default.fromCSV preciseShirt.toCSV
      = ⟨none, { preciseShirt with price := 1234570 }⟩ := by
  decide!

/-- C2, the code at the failing input: a `Clothing` built without a material (the
default of the constructor), no comma in any field. `toCSV` writes its eight
fields, the last one empty, so the line ends in a comma; `split` drops the empty
token after the final comma and returns seven tokens; the guard
`tokens.size() >= 8` of `Clothing::fromCSV` fails and the default-constructed
object stays as it was, so id, name, price, stock, size and colour are lost.
`Stationery` and `Accessory` lose a product with an empty last field in the same
way. An empty field that is not the last one, here the colour, is restored. -/
theorem fromCSV_toCSV_empty_last_field :
    plainShirt.freeOf ',' ∧
    plainShirt.toCSV = "Clothing,C1,Shirt,20,5,M,Red," ∧
    split plainShirt.toCSV ',' = ["Clothing", "C1", "Shirt", "20", "5", "M", "Red"] ∧
    Clothing.default.fromCSV plainShirt.toCSV = ⟨none, Clothing.default⟩ ∧
    ¬ plainShirt.sameFields (Clothing.default.fromCSV plainShirt.toCSV).state ∧
    Stationery.default.fromCSV ({ inkPen with variant := .stationery "Dollar" "" }).toCSV
      = ⟨none, Stationery.default⟩ ∧
    Accessory.default.fromCSV ({ usbCable with variant := .accessory true "" }).toCSV
      = ⟨none, Accessory.default⟩ ∧
    Clothing.default.fromCSV ({ cottonShirt with variant := .clothing "M" "" "Cotton" }).toCSV
      = ⟨none, { cottonShirt with variant := .clothing "M" "" "Cotton" }⟩ := by
  decide!

/-! ## The products file -/

/-- C1, the code at the failing input: an inventory that holds a `Clothing` built
without a material, no comma and no line break in any field. `saveToFile` writes
the line `Clothing,C1,Shirt,20,5,M,Red,` for it; `loadFromFile` allocates a
`Clothing` for the tag, `fromCSV` leaves it untouched because `split` finds only
seven tokens in the line, and the untouched object is pushed: the product comes
back with an empty id and name, price 0 and stock 0. In a list of three
products the other two come back as they were saved. -/
theorem save_load_empty_last_field :
    plainShirt.freeOf ',' ∧ plainShirt.freeOf '\n' ∧
    (Inventory.mk [plainShirt] "shop").saveToFile "products.txt" true
      = .ok "Clothing,C1,Shirt,20,5,M,Red,\n" ∧
    (Inventory.mk [] "fresh").loadFromFile (some "Clothing,C1,Shirt,20,5,M,Red,\n")
      = ⟨none, Inventory.mk [Clothing.default] "fresh"⟩ ∧
    ¬ plainShirt.sameFields Clothing.default ∧
    (Inventory.mk [cottonShirt, plainShirt, usbCable] "shop").saveToFile "products.txt" true
      = .ok ("Clothing,C1,Shirt,20,5,M,Red,Cotton\nClothing,C1,Shirt,20,5,M,Red,\n"
          ++ "Accessory,A1,Cable,10,2,1,USB\n") ∧
    (Inventory.mk [] "fresh").loadFromFile
        (some ("Clothing,C1,Shirt,20,5,M,Red,Cotton\nClothing,C1,Shirt,20,5,M,Red,\n"
          ++ "Accessory,A1,Cable,10,2,1,USB\n"))
      = ⟨none, Inventory.mk [cottonShirt, Clothing.default, usbCable] "fresh"⟩ := by
  decide!

/-! ## Orders -/

/-- C3, the code at the failing input: Bob orders 3 shirts at 20, then the price
of the shirt is set to 30. The order is written with the unit price 20; decoding
that line takes the unit price from the product, 30, so encoding again gives
another line. -/
theorem order_reencode_after_setPrice :
    bobOrder.toCSV shopRepriced.mainInventory.products = "1001,Bob,60,1700000000,1,C1,3,20" ∧
    ((Order.init 1001 "" 0).1.fromCSV 1002 "1001,Bob,60,1700000000,1,C1,3,20"
        shopRepriced.mainInventory).thrown = none ∧
    ((Order.init 1001 "" 0).1.fromCSV 1002 "1001,Bob,60,1700000000,1,C1,3,20"
        shopRepriced.mainInventory).state.1.items = [⟨0, 3, 30⟩] ∧
    ((Order.init 1001 "" 0).1.fromCSV 1002 "1001,Bob,60,1700000000,1,C1,3,20"
        shopRepriced.mainInventory).state.1.toCSV shopRepriced.mainInventory.products
      = "1001,Bob,60,1700000000,1,C1,3,30" := by
  decide!

/-- C4: `addItem` with a positive quantity above the stock of the product throws
`InsufficientStock` carrying the name of the product, the quantity asked for
and the stock, and leaves the order (items, total) and the products (stock) as
they were. -/
theorem addItem_insufficient (o : Order) (products : List Product) (product : Nat)
    (quantity : Int) (_hp : product < products.length) (hq : 0 < quantity)
    (hs : (deref products product).stock < quantity) :
    o.addItem products product quantity =
      ⟨some (.insufficientStock (deref products product).name quantity
        (deref products product).stock), (o, products)⟩ := by
  unfold Order.addItem
  rw [if_neg (by omega), if_pos hs]

/-- Witness of C4: 6 shirts are asked for and 5 are in stock. -/
theorem addItem_insufficient_witness :
    (0 : Nat) < [cottonShirt].length ∧ (0 : Int) < 6 ∧ (deref [cottonShirt] 0).stock < 6 ∧
    (Order.init 1000 "Bob" 0).1.addItem [cottonShirt] 0 6 =
      ⟨some (.insufficientStock "Shirt" 6 5), ((Order.init 1000 "Bob" 0).1, [cottonShirt])⟩ :=
  ⟨by decide, by decide, by decide,
    addItem_insufficient (Order.init 1000 "Bob" 0).1 [cottonShirt] 0 6 (by decide) (by decide)
      (by decide)⟩

/-- C5: `addItem` with a quantity `q`, `0 < q ≤ stock`, does not throw; it appends
one item (the product, `q`, the current price as unit price) at the end of the
items, adds `price * q` to the total and leaves the product with `stock - q`,
every other product as it was. -/
theorem addItem_success (o : Order) (products : List Product) (product : Nat)
    (quantity : Int) (_hp : product < products.length) (hq : 0 < quantity)
    (hs : quantity ≤ (deref products product).stock) :
    o.addItem products product quantity =
      ⟨none, ({ o with
          items := o.items ++ [⟨product, quantity, (deref products product).price⟩],
          totalAmount := o.totalAmount + (deref products product).price * (quantity : ℚ) },
        products.set product
          { deref products product with stock := (deref products product).stock - quantity })⟩ := by
  unfold Order.addItem
  rw [if_neg (by omega), if_neg (by omega)]
  simp only [Product.updateStock, OrderItem.init, OrderItem.getTotal, addInt_neg _ _ hq hs]
  rw [if_neg (by omega)]

/-- Witness of C5, the scenario of the specification: `Clothing` C1 at price 20
with 5 in stock; `addItem` of 3 leaves a stock of 2 and a total of 60, and a
second `addItem` of 5 throws `InsufficientStock` with 2 available. -/
theorem addItem_success_witness :
    ((0 : Nat) < [cottonShirt].length ∧ (0 : Int) < 3 ∧ 3 ≤ (deref [cottonShirt] 0).stock) ∧
    (Order.init 1000 "Bob" 0).1.addItem [cottonShirt] 0 3 =
      ⟨none, ({ orderId := 1001, customerName := "Bob", items := [⟨0, 3, 20⟩],
                totalAmount := 60, orderDate := 0 },
              [{ cottonShirt with stock := 2 }])⟩ ∧
    ((Order.init 1000 "Bob" 0).1.addItem [cottonShirt] 0 3).state.1.addItem
        ((Order.init 1000 "Bob" 0).1.addItem [cottonShirt] 0 3).state.2 0 5 =
      ⟨some (.insufficientStock "Shirt" 5 2),
        ((Order.init 1000 "Bob" 0).1.addItem [cottonShirt] 0 3).state⟩ :=
  ⟨⟨by decide, by decide, by decide⟩,
    (addItem_success (Order.init 1000 "Bob" 0).1 [cottonShirt] 0 3 (by decide) (by decide)
      (by decide)).trans (by decide!),
    by decide!⟩

/-- One `addItem`, whether it throws or not, keeps the total equal to the sum of
the line totals. -/
theorem Order.addItem_total (o : Order) (products : List Product) (product : Nat)
    (quantity : Int) (h : o.totalAmount = o.itemsTotal) :
    (o.addItem products product quantity).state.1.totalAmount
      = (o.addItem products product quantity).state.1.itemsTotal := by
  unfold Order.addItem
  split
  · exact h
  · split
    · exact h
    · simp only [Order.itemsTotal] at h
      simp [Order.itemsTotal, h]

theorem Call.run_total (app : App) (c : Call)
    (h : ∀ o ∈ app.orders, o.totalAmount = o.itemsTotal) :
    ∀ o ∈ (c.run app).orders, o.totalAmount = o.itemsTotal := by
  cases c with
  | createOrder customerName now =>
    intro o ho
    simp only [Call.run, Order.init, List.mem_append, List.mem_singleton] at ho
    rcases ho with ho | rfl
    · exact h o ho
    · simp [Order.itemsTotal]
  | addItem order product quantity =>
    simp only [Call.run]
    cases hget : app.orders.get? order with
    | none => exact h
    | some o1 =>
      intro o ho
      simp only at ho
      rcases List.mem_or_eq_of_mem_set ho with ho | rfl
      · exact h o ho
      · exact Order.addItem_total o1 _ _ _ (h o1 (List.get?_mem hget))
  | setPrice product newPrice =>
    simp only [Call.run]
    cases app.mainInventory.products.get? product <;> exact h
  | updateStock product quantity =>
    simp only [Call.run]
    cases app.mainInventory.products.get? product <;> exact h

theorem runCalls_total (app : App) (calls : List Call)
    (h : ∀ o ∈ app.orders, o.totalAmount = o.itemsTotal) :
    ∀ o ∈ (runCalls app calls).orders, o.totalAmount = o.itemsTotal := by
  induction calls generalizing app with
  | nil => exact h
  | cons c cs ih => exact ih (c.run app) (Call.run_total app c h)

/-- C6: in a shop that starts without orders, after any sequence of calls
(orders constructed, `addItem` calls that succeed or throw, `setPrice` and
`updateStock` calls on the products in between) the total of every order equals
the sum over its items of `unitPrice * quantity`. -/
theorem totalAmount_eq_itemsTotal (inventory : Inventory) (orderCounter : Int)
    (calls : List Call) :
    ∀ o ∈ (runCalls { mainInventory := inventory, orders := [], orderCounter := orderCounter }
        calls).orders,
      o.totalAmount = (o.items.map (fun item => item.unitPrice * (item.quantity : ℚ))).sum := by
  intro o ho
  have := runCalls_total _ calls (by simp) o ho
  simpa [Order.itemsTotal, OrderItem.getTotal] using this

/-- Witness of C6: Bob orders 3 shirts at 20, the price is set to 30, a sale of 5
is refused and 1 more shirt is sold at 30; the total, 90, is `20 * 3 + 30 * 1`. -/
theorem totalAmount_eq_itemsTotal_witness :
    ({ orderId := 1001, customerName := "Bob", items := [⟨0, 3, 20⟩, ⟨0, 1, 30⟩],
       totalAmount := 90, orderDate := 0 } : Order) ∈
      (runCalls { mainInventory := oneShirtShop.mainInventory, orders := [], orderCounter := 1000 }
        [.createOrder "Bob" 0, .addItem 0 0 3, .setPrice 0 30, .addItem 0 0 5,
          .addItem 0 0 1]).orders ∧
    (90 : ℚ) = ([⟨0, 3, 20⟩, ⟨0, 1, 30⟩].map
      (fun item : OrderItem => item.unitPrice * (item.quantity : ℚ))).sum :=
  ⟨by decide!, totalAmount_eq_itemsTotal oneShirtShop.mainInventory 1000
    [.createOrder "Bob" 0, .addItem 0 0 3, .setPrice 0 30, .addItem 0 0 5, .addItem 0 0 1]
    { orderId := 1001, customerName := "Bob", items := [⟨0, 3, 20⟩, ⟨0, 1, 30⟩],
      totalAmount := 90, orderDate := 0 } (by decide!)⟩

/-- C7 (amended): `updateStock` with a delta `d` on a stock `s` whose sum `s + d`
is an `int`: when `0 ≤ s + d` it does not throw and the stock becomes `s + d`,
nothing else changes; when `s + d < 0` and `d` is not the least `int` it throws
`InsufficientStock` with the name, the decrease `-d` and the stock `s`, and the
product is as it was. -/
theorem updateStock_spec (p : Product) (d : Int) (hsum : isInt32 (p.stock + d)) :
    (0 ≤ p.stock + d → p.updateStock d = ⟨none, { p with stock := p.stock + d }⟩) ∧
    (p.stock + d < 0 → d ≠ -2147483648 →
      p.updateStock d = ⟨some (.insufficientStock p.name (-d) p.stock), p⟩) := by
  unfold Product.updateStock
  rw [addInt_eq _ _ hsum]
  constructor
  · intro h
    rw [if_neg (by omega)]
  · intro h hd
    rw [if_pos h, negInt_eq _ hd]

/-- Witness of C7 (amended) on the shirt, 5 in stock: a decrease by 3 leaves 2, a
decrease by 6 throws and leaves 5. -/
theorem updateStock_spec_witness :
    (isInt32 (cottonShirt.stock + -3) ∧ 0 ≤ cottonShirt.stock + -3 ∧
      cottonShirt.updateStock (-3) = ⟨none, { cottonShirt with stock := 2 }⟩) ∧
    (isInt32 (cottonShirt.stock + -6) ∧ cottonShirt.stock + -6 < 0 ∧
      cottonShirt.updateStock (-6) = ⟨some (.insufficientStock "Shirt" 6 5), cottonShirt⟩) :=
  ⟨⟨by decide, by decide, (updateStock_spec cottonShirt (-3) (by decide)).1 (by decide)⟩,
    ⟨by decide, by decide,
      (updateStock_spec cottonShirt (-6) (by decide)).2 (by decide) (by decide)⟩⟩

/-- Counterexample to C7 as stated. With the greatest `int`, 2147483647, in stock
and the delta 1 the sum `s + d` is not negative, yet the call throws
`InsufficientStock` and the stock stays: the `int` sum has wrapped around to
-2147483648. With the least `int` as delta on a stock of 0 the call throws, but
the decrease it carries is -2147483648 and not `-d`. -/
theorem updateStock_overflow_counterexample :
    ((0 : Int) ≤ fullShirt.stock + 1 ∧
      fullShirt.updateStock 1
        = ⟨some (.insufficientStock "Shirt" (-1) 2147483647), fullShirt⟩) ∧
    (({ cottonShirt with stock := 0 }).stock + -2147483648 < 0 ∧
      ({ cottonShirt with stock := 0 }).updateStock (-2147483648)
        = ⟨some (.insufficientStock "Shirt" (-2147483648) 0), { cottonShirt with stock := 0 }⟩ ∧
      -(-2147483648 : Int) ≠ -2147483648) := by
  decide

theorem Product.updateStock_nonneg (p : Product) (d : Int) (h : 0 ≤ p.stock) :
    0 ≤ (p.updateStock d).state.stock := by
  unfold Product.updateStock
  dsimp only
  split
  · exact h
  · simp only; omega

theorem deref_set_stock (products : List Product) (i j : Nat) (x : Product)
    (hi : 0 ≤ (deref products i).stock) (hx : j = i → 0 ≤ x.stock) :
    0 ≤ (deref (products.set j x) i).stock := by
  unfold deref at *
  rw [List.getD_eq_getElem?_getD] at *
  rw [List.getElem?_set]
  split
  · rename_i hji
    split
    · exact hx hji
    · simp [Clothing.default]
  · exact hi

theorem Order.addItem_stock (o : Order) (products : List Product) (product i : Nat)
    (quantity : Int) (h : 0 ≤ (deref products i).stock) :
    0 ≤ (deref (o.addItem products product quantity).state.2 i).stock := by
  unfold Order.addItem
  split
  · exact h
  · split
    · exact h
    · apply deref_set_stock _ _ _ _ h
      intro hji
      subst hji
      exact Product.updateStock_nonneg _ _ h

theorem Call.run_stock (app : App) (c : Call) (i : Nat)
    (h : 0 ≤ (deref app.mainInventory.products i).stock) :
    0 ≤ (deref (c.run app).mainInventory.products i).stock := by
  cases c with
  | createOrder customerName now => exact h
  | addItem order product quantity =>
    simp only [Call.run]
    cases app.orders.get? order with
    | none => exact h
    | some o1 => exact Order.addItem_stock o1 _ _ _ _ h
  | setPrice product newPrice =>
    simp only [Call.run]
    cases hget : app.mainInventory.products.get? product with
    | none => exact h
    | some p =>
      apply deref_set_stock _ _ _ _ h
      intro hji
      subst hji
      have hp : deref app.mainInventory.products product = p := by
        unfold deref
        rw [List.getD_eq_getElem?_getD]
        rw [List.get?_eq_getElem?] at hget
        rw [hget]; rfl
      rw [hp] at h
      unfold Product.setPrice
      split <;> exact h
  | updateStock product quantity =>
    simp only [Call.run]
    cases hget : app.mainInventory.products.get? product with
    | none => exact h
    | some p =>
      apply deref_set_stock _ _ _ _ h
      intro hji
      subst hji
      have hp : deref app.mainInventory.products product = p := by
        unfold deref
        rw [List.getD_eq_getElem?_getD]
        rw [List.get?_eq_getElem?] at hget
        rw [hget]; rfl
      rw [hp] at h
      exact Product.updateStock_nonneg _ _ h

/-- C8: a product whose stock is not negative keeps a stock that is not negative
through any sequence of calls: `updateStock` and `addItem` calls on any orders,
succeeding or throwing, with `setPrice` calls and new orders in between. -/
theorem stock_never_negative (app : App) (calls : List Call) (i : Nat)
    (h : 0 ≤ (deref app.mainInventory.products i).stock) :
    0 ≤ (deref (runCalls app calls).mainInventory.products i).stock := by
  induction calls generalizing app with
  | nil => exact h
  | cons c cs ih => exact ih (c.run app) (Call.run_stock app c i h)

/-- Witness of C8: the shirt, 5 in stock, after a sale of 3, a refused sale of 5,
a refused decrease by 4 and a decrease by 2 has a stock of 0. -/
theorem stock_never_negative_witness :
    0 ≤ (deref oneShirtShop.mainInventory.products 0).stock ∧
    0 ≤ (deref (runCalls oneShirtShop [.createOrder "Bob" 0, .addItem 0 0 3, .addItem 0 0 5,
      .updateStock 0 (-4), .updateStock 0 (-2)]).mainInventory.products 0).stock ∧
    (deref (runCalls oneShirtShop [.createOrder "Bob" 0, .addItem 0 0 3, .addItem 0 0 5,
      .updateStock 0 (-4), .updateStock 0 (-2)]).mainInventory.products 0).stock = 0 :=
  ⟨by decide, stock_never_negative oneShirtShop _ 0 (by decide), by decide!⟩

/-! ## Order ids -/

/-- Decoding a line never lowers the counter, and an order that was not above the
counter is not above it afterwards. -/
theorem Order.fromCSV_counter (o : Order) (counter : Int) (csvLine : String)
    (inventory : Inventory) (h : o.orderId ≤ counter) :
    counter ≤ (o.fromCSV counter csvLine inventory).state.2 ∧
    ((o.fromCSV counter csvLine inventory).thrown = none →
      (o.fromCSV counter csvLine inventory).state.1.orderId
        ≤ (o.fromCSV counter csvLine inventory).state.2) := by
  unfold Order.fromCSV
  dsimp only
  split
  · split
    · exact ⟨le_refl _, fun hx => by simp at hx⟩
    · split
      · exact ⟨le_refl _, fun hx => by simp at hx⟩
      · split
        · exact ⟨le_refl _, fun hx => by simp at hx⟩
        · split
          · exact ⟨le_refl _, fun hx => by simp at hx⟩
          · split
            · exact ⟨le_refl _, fun hx => by simp at hx⟩
            · constructor
              · simp only; split <;> omega
              · intro _; simp only; split <;> omega
  · exact ⟨le_refl _, fun _ => h⟩

/-- The counter after a line has been decoded is the counter before it or, when
nothing was thrown, the id read from the line. -/
theorem Order.fromCSV_counter_cases (o : Order) (counter : Int) (csvLine : String)
    (inventory : Inventory) :
    (o.fromCSV counter csvLine inventory).state.2 = counter ∨
    ((o.fromCSV counter csvLine inventory).thrown = none ∧
      (o.fromCSV counter csvLine inventory).state.2
        = (o.fromCSV counter csvLine inventory).state.1.orderId) := by
  unfold Order.fromCSV
  dsimp only
  split
  · split
    · exact Or.inl rfl
    · split
      · exact Or.inl rfl
      · split
        · exact Or.inl rfl
        · split
          · exact Or.inl rfl
          · split
            · exact Or.inl rfl
            · split
              · exact Or.inr ⟨rfl, rfl⟩
              · exact Or.inl rfl
  · exact Or.inl rfl

/-- The orders read so far stay in the order book. -/
theorem loadOrderLines_mem (inventory : Inventory) (clock : Nat → Int)
    (lines : List String) (k : Nat) (orders : List Order) (counter : Int) (o : Order)
    (ho : o ∈ orders) : o ∈ (loadOrderLines inventory clock lines k orders counter).state.1 := by
  induction lines generalizing k orders counter with
  | nil => exact ho
  | cons line rest ih =>
    unfold loadOrderLines
    split
    · exact ih _ _ _ ho
    · dsimp only
      split
      · exact ho
      · exact ih _ _ _ (List.mem_append_left _ ho)

/-- While the counter and the ids read leave room below `B` for the orders that
the non-empty lines construct, and `B` is an `int`, the counter does not wrap
around: it ends at most at `B`, and no order of the book has an id above it. -/
theorem loadOrderLines_counter (inventory : Inventory) (clock : Nat → Int) (B : Int)
    (hB : B ≤ 2147483647) (lines : List String) (k : Nat) (orders : List Order) (counter : Int)
    (hroom : counter + (nonEmptyLines lines : Int) ≤ B)
    (hids : ∀ o ∈ (loadOrderLines inventory clock lines k orders counter).state.1,
      o.orderId + (nonEmptyLines lines : Int) ≤ B)
    (h : ∀ o ∈ orders, o.orderId ≤ counter) :
    (loadOrderLines inventory clock lines k orders counter).state.2 ≤ B ∧
    ∀ o ∈ (loadOrderLines inventory clock lines k orders counter).state.1,
      o.orderId ≤ (loadOrderLines inventory clock lines k orders counter).state.2 := by
  induction lines generalizing k orders counter with
  | nil =>
    simp only [nonEmptyLines] at hroom
    exact ⟨by simpa [loadOrderLines] using hroom, h⟩
  | cons line rest ih =>
    unfold loadOrderLines at hids ⊢
    by_cases he : line.data.isEmpty = true
    · rw [if_pos he] at hids ⊢
      have hn : nonEmptyLines (line :: rest) = nonEmptyLines rest := by
        simp [nonEmptyLines, he]
      rw [hn] at hroom hids
      exact ih _ _ _ hroom hids h
    · rw [if_neg he] at hids ⊢
      have hn : (nonEmptyLines (line :: rest) : Int) = (nonEmptyLines rest : Int) + 1 := by
        simp [nonEmptyLines, he]
      rw [hn] at hroom hids
      have h1 : (Order.init counter "" (clock k)).1.orderId = counter + 1 :=
        addInt_one counter (by omega)
      have h2 : (Order.init counter "" (clock k)).2 = counter + 1 :=
        addInt_one counter (by omega)
      have hf := Order.fromCSV_counter (Order.init counter "" (clock k)).1
        (Order.init counter "" (clock k)).2 line inventory (by rw [h1, h2])
      have hcases := Order.fromCSV_counter_cases (Order.init counter "" (clock k)).1
        (Order.init counter "" (clock k)).2 line inventory
      dsimp only at hids ⊢
      cases hthrown : ((Order.init counter "" (clock k)).1.fromCSV
          (Order.init counter "" (clock k)).2 line inventory).thrown with
      | some e =>
        simp only [hthrown] at hids ⊢
        have hsame : ((Order.init counter "" (clock k)).1.fromCSV
            (Order.init counter "" (clock k)).2 line inventory).state.2 = counter + 1 := by
          rcases hcases with hc | hc
          · rw [hc, h2]
          · rw [hc.1] at hthrown
            cases hthrown
        rw [hsame]
        exact ⟨by omega, fun o ho => by have := h o ho; omega⟩
      | none =>
        simp only [hthrown] at hids ⊢
        have hmem := loadOrderLines_mem inventory clock rest (k + 1)
          (orders ++ [((Order.init counter "" (clock k)).1.fromCSV
            (Order.init counter "" (clock k)).2 line inventory).state.1])
          ((Order.init counter "" (clock k)).1.fromCSV
            (Order.init counter "" (clock k)).2 line inventory).state.2
          _ (List.mem_append_right _ (List.mem_singleton_self _))
        have hid := hids _ hmem
        apply ih
        · rcases hcases with hc | hc
          · rw [hc, h2]; omega
          · rw [hc.2]; omega
        · intro o ho
          have := hids o ho
          omega
        · intro o ho
          rcases List.mem_append.1 ho with ho | ho
          · have := h o ho
            have := hf.1
            omega
          · rw [List.mem_singleton] at ho
            rw [ho]
            exact hf.2 hthrown

/-- While the counter leaves room for the orders the calls construct, every
construction adds one to it. -/
theorem runCalls_counter (calls : List Call) (app : App)
    (h : app.orderCounter + (constructions calls : Int) ≤ 2147483647) :
    (runCalls app calls).orderCounter = app.orderCounter + (constructions calls : Int) := by
  induction calls generalizing app with
  | nil => simp [runCalls, constructions]
  | cons c cs ih =>
    have hrun : runCalls app (c :: cs) = runCalls (c.run app) cs := rfl
    rw [hrun]
    cases c with
    | createOrder customerName now =>
      have hc : (Call.run app (.createOrder customerName now)).orderCounter
          = app.orderCounter + 1 := by
        simp only [Call.run, Order.init]
        exact addInt_one _ (by simp only [constructions] at h; omega)
      simp only [constructions] at h ⊢
      rw [ih _ (by rw [hc]; omega), hc]
      push_cast
      omega
    | addItem order product quantity =>
      have hc : (Call.run app (.addItem order product quantity)).orderCounter
          = app.orderCounter := by
        simp only [Call.run]
        cases app.orders.get? order <;> rfl
      simp only [constructions] at h ⊢
      rw [ih _ (by rw [hc]; exact h), hc]
    | setPrice product newPrice =>
      have hc : (Call.run app (.setPrice product newPrice)).orderCounter
          = app.orderCounter := by
        simp only [Call.run]
        cases app.mainInventory.products.get? product <;> rfl
      simp only [constructions] at h ⊢
      rw [ih _ (by rw [hc]; exact h), hc]
    | updateStock product quantity =>
      have hc : (Call.run app (.updateStock product quantity)).orderCounter
          = app.orderCounter := by
        simp only [Call.run]
        cases app.mainInventory.products.get? product <;> rfl
      simp only [constructions] at h ⊢
      rw [ih _ (by rw [hc]; exact h), hc]

/-- The order line `1500,Bob,60,1700000000,0` decoded into any order. -/
theorem Order.fromCSV_1500 (o : Order) (counter : Int) (inventory : Inventory) :
    o.fromCSV counter "1500,Bob,60,1700000000,0" inventory =
      ⟨none, ({ o with orderId := 1500, customerName := "Bob", totalAmount := 60,
                       orderDate := 1700000000 },
              if 1500 > counter then 1500 else counter)⟩ := by
  have hsplit : split "1500,Bob,60,1700000000,0" ',' = ["1500", "Bob", "60", "1700000000", "0"] := by
    decide
  have h0 : stoi "1500" = .ok 1500 := by decide
  have h2 : stod "60" = .ok 60 := by decide!
  have h3 : stol "1700000000" = .ok 1700000000 := by decide
  have h4 : stoi "0" = .ok 0 := by decide
  unfold Order.fromCSV
  simp only [hsplit, List.getD_cons_succ, List.getD_cons_zero, h0, h2, h3, h4]
  rfl

/-- C9 (amended): order ids do not collide while the counter stays below the
greatest `int`, 2147483647. The first order ever constructed has id 1001. Of two
orders constructed one after the other, whatever calls come in between, the
later has the greater id, provided the counter leaves room for the orders
constructed. After an orders file has been loaded, whatever calls follow, a
newly constructed order has an id greater than the id of every order loaded from
the file, provided the counter and the ids read leave room for the orders
constructed, one for each non-empty line of the file and each construction
among the calls. After loading an order book that holds id 1500 into a shop
whose counter is below 2147483646, the next new order has an id of at least
1501. -/
theorem orderId_never_collides :
    (∀ customer now, (Order.init orderCounterInit customer now).1.orderId = 1001) ∧
    (∀ (app : App) c1 n1 (calls : List Call) c2 n2,
      app.orderCounter + (constructions calls : Int) + 2 ≤ 2147483647 →
      (app.newOrder c1 n1).1.orderId
        < ((runCalls (app.newOrder c1 n1).2 calls).newOrder c2 n2).1.orderId) ∧
    (∀ (app : App) contents clock (calls : List Call) customer now,
      app.orderCounter + (nonEmptyLines (split contents '\n') : Int)
        + (constructions calls : Int) + 1 ≤ 2147483647 →
      (∀ o ∈ (app.loadOrdersFromFile (some contents) clock).state.orders,
        o.orderId + (nonEmptyLines (split contents '\n') : Int)
          + (constructions calls : Int) + 1 ≤ 2147483647) →
      ∀ o ∈ (app.loadOrdersFromFile (some contents) clock).state.orders,
        o.orderId < ((runCalls (app.loadOrdersFromFile (some contents) clock).state
          calls).newOrder customer now).1.orderId) ∧
    (∀ (app : App) clock customer now, app.orderCounter + 2 ≤ 2147483647 →
      1501 ≤ ((app.loadOrdersFromFile (some "1500,Bob,60,1700000000,0\n") clock).state.newOrder
        customer now).1.orderId) := by
  refine ⟨fun _ _ => (by decide : addInt orderCounterInit 1 = 1001), ?_, ?_, ?_⟩
  · intro app c1 n1 calls c2 n2 hroom
    have h1 : addInt app.orderCounter 1 = app.orderCounter + 1 := addInt_one _ (by omega)
    have hrun := runCalls_counter calls (app.newOrder c1 n1).2 (by
      simp only [App.newOrder, Order.init, h1]; omega)
    simp only [App.newOrder, Order.init, h1] at hrun ⊢
    rw [hrun, addInt_one _ (by omega)]
    omega
  · intro app contents clock calls customer now hroom hids o ho
    have hload := loadOrderLines_counter app.mainInventory clock
      (2147483647 - ((constructions calls : Int) + 1)) (by omega) (split contents '\n') 0 []
      app.orderCounter (by omega)
      (fun o ho => by
        have := hids o (by simpa [App.loadOrdersFromFile] using ho)
        omega)
      (by simp)
    have hrun := runCalls_counter calls (app.loadOrdersFromFile (some contents) clock).state (by
      simp only [App.loadOrdersFromFile]; omega)
    simp only [App.loadOrdersFromFile] at ho hrun
    have := hload.2 o ho
    simp only [App.newOrder, Order.init, App.loadOrdersFromFile]
    rw [hrun, addInt_one _ (by omega)]
    omega
  · intro app clock customer now hroom
    have hsplit : split "1500,Bob,60,1700000000,0\n" '\n' = ["1500,Bob,60,1700000000,0"] := by
      decide
    have hload : (loadOrderLines app.mainInventory clock ["1500,Bob,60,1700000000,0"] 0 []
        app.orderCounter).state.2 = if 1500 > app.orderCounter + 1 then 1500
          else app.orderCounter + 1 := by
      rw [loadOrderLines, if_neg (by decide)]
      dsimp only [Order.init]
      rw [addInt_one _ (by omega), Order.fromCSV_1500]
      rfl
    unfold App.loadOrdersFromFile App.newOrder Order.init
    dsimp only
    rw [hsplit, hload]
    split
    · decide
    · rw [addInt_one _ (by omega)]
      omega

/-- Witness of C9 (amended): in the shop whose counter is 1000, Bob and Eve get the
ids 1001 and 1002; after the order book with id 1500 has been loaded, the next
order gets 1501. -/
theorem orderId_never_collides_witness :
    (oneShirtShop.orderCounter + (constructions [Call.addItem 0 0 1] : Int) + 2 ≤ 2147483647 ∧
      (oneShirtShop.newOrder "Bob" 0).1.orderId = 1001 ∧
      ((runCalls (oneShirtShop.newOrder "Bob" 0).2 [Call.addItem 0 0 1]).newOrder "Eve"
        0).1.orderId = 1002) ∧
    (oneShirtShop.orderCounter + 2 ≤ 2147483647 ∧
      1501 ≤ ((oneShirtShop.loadOrdersFromFile (some "1500,Bob,60,1700000000,0\n")
        (fun _ => 0)).state.newOrder "Eve" 0).1.orderId ∧
      ((oneShirtShop.loadOrdersFromFile (some "1500,Bob,60,1700000000,0\n")
        (fun _ => 0)).state.newOrder "Eve" 0).1.orderId = 1501) :=
  ⟨⟨by decide, by decide, by decide⟩,
    ⟨by decide, orderId_never_collides.2.2.2 oneShirtShop (fun _ => 0) "Eve" 0 (by decide),
      by decide!⟩⟩

/-- Counterexample to C9 as stated: the orders file holds the greatest `int`,
2147483647, as an id. Loading it raises the counter to that id, and the
increment of the next construction wraps around: the new order gets the id
-2147483648, which is below the id read from the file. -/
theorem orderId_overflow_counterexample :
    (oneShirtShop.loadOrdersFromFile (some "2147483647,Bob,0,0,0\n") (fun _ => 0)).state.orders
      = [{ orderId := 2147483647, customerName := "Bob", items := [], totalAmount := 0,
           orderDate := 0 }] ∧
    ((oneShirtShop.loadOrdersFromFile (some "2147483647,Bob,0,0,0\n")
      (fun _ => 0)).state.newOrder "Eve" 0).1.orderId = -2147483648 ∧
    ¬ (2147483647 : Int) < ((oneShirtShop.loadOrdersFromFile (some "2147483647,Bob,0,0,0\n")
      (fun _ => 0)).state.newOrder "Eve" 0).1.orderId := by
  decide!

/-! ## Lines of the products file -/

/-- C10, the code at the failing input: the line `Clothing,C2` has a recognized
tag and two of the eight fields of a `Clothing`. `loadFromFile` allocates a
`Clothing` for the tag, `fromCSV` leaves it untouched because its guard fails,
and the object is pushed all the same: the container gets a default-constructed
`Clothing`, with an empty id and name, price 0 and stock 0, where the line was
to be skipped. An empty line and a line with an unknown tag are skipped. In a
file of a full line, an empty line, a line with an unknown tag, the short line
and another full line, the short line gives the second of three products. -/
theorem loadFromFile_short_line :
    (split "Clothing,C2" ',').length = 2 ∧
    (Inventory.mk [] "shop").loadFromFile (some "Clothing,C2\n")
      = ⟨none, Inventory.mk [Clothing.default] "shop"⟩ ∧
    (Inventory.mk [] "shop").loadFromFile (some "\nBook,B1,Novel\n")
      = ⟨none, Inventory.mk [] "shop"⟩ ∧
    (Inventory.mk [] "shop").loadFromFile (some mixedFile)
      = ⟨none, Inventory.mk [cottonShirt, Clothing.default, usbCable] "shop"⟩ := by
  decide!

/-! ## Lines of the orders file -/

/-- A line with fewer than five tokens leaves the order and the counter as they are. -/
theorem Order.fromCSV_fewTokens (o : Order) (counter : Int) (line : String)
    (inventory : Inventory) (h : (split line ',').length < 5) :
    o.fromCSV counter line inventory = ⟨none, (o, counter)⟩ := by
  unfold Order.fromCSV
  dsimp only
  rw [if_neg (by omega)]

/-- C11, the code at the failing input: the line `xx,yy` has two of the five
header fields. The read loop constructs an `Order` for every non-empty line,
which takes the next id from the counter; `fromCSV` leaves it untouched because
its guard fails, and the order is pushed all the same: the order book gets an
order with the id 1001, no customer name, no items, total 0 and the time of the
load, where the line was to be skipped. The id it consumed can return: when the
line `1001,Bob,0,0,0` follows, the order book holds the id 1001 twice. -/
theorem loadOrders_short_line :
    (split "xx,yy" ',').length = 2 ∧
    oneShirtShop.loadOrdersFromFile (some "xx,yy\n") (fun _ => 7)
      = ⟨none, { oneShirtShop with
          orders := [{ orderId := 1001, customerName := "", items := [], totalAmount := 0,
                       orderDate := 7 }],
          orderCounter := 1001 }⟩ ∧
    (oneShirtShop.loadOrdersFromFile (some "xx,yy\n1001,Bob,0,0,0\n") (fun _ => 7)).state.orders
      = [{ orderId := 1001, customerName := "", items := [], totalAmount := 0, orderDate := 7 },
         { orderId := 1001, customerName := "Bob", items := [], totalAmount := 0,
           orderDate := 0 }] := by
  decide!

/-! ## Prices -/

/-- C12, the code at the failing input: decoding the line
`Clothing,C1,Shirt,-5,5,M,Red,Cotton` gives a product whose price is -5, through
`fromCSV` and through `loadFromFile`, which make no check on the price they read;
the constructor and `setPrice` refuse the same price. -/
theorem fromCSV_negative_price :
    Clothing.default.fromCSV "Clothing,C1,Shirt,-5,5,M,Red,Cotton"
      = ⟨none, { cottonShirt with price := -5 }⟩ ∧
    (Inventory.mk [] "shop").loadFromFile (some "Clothing,C1,Shirt,-5,5,M,Red,Cotton\n")
      = ⟨none, Inventory.mk [{ cottonShirt with price := -5 }] "shop"⟩ ∧
    ({ cottonShirt with price := -5 } : Product).price < 0 ∧
    (Clothing.init 0 "C1" "Shirt" (-5) 5 "M" "Red" "Cotton").1 = .error (.invalidPrice (-5)) ∧
    (cottonShirt.setPrice (-5)).thrown = some (.invalidPrice (-5)) := by
  decide!

/-- C13: a `Clothing` or `Stationery` product of price `p` and a discount `d`:
when `0 ≤ d ≤ 100`, `calculateDiscountedPrice` returns `p * (1 - d / 100)`; when
`d < 0` or `d > 100` it throws `InvalidDiscount`. -/
theorem discount_nonAccessory (p : Product) (d : ℚ) (hp : p.getType ≠ "Accessory") :
    (0 ≤ d ∧ d ≤ 100 → p.calculateDiscountedPrice d = .ok (p.price * (1 - d / 100))) ∧
    (d < 0 ∨ 100 < d → p.calculateDiscountedPrice d = .error (.invalidDiscount d)) := by
  have hbase : p.calculateDiscountedPrice d = p.baseDiscountedPrice d := by
    unfold Product.calculateDiscountedPrice
    cases hv : p.variant with
    | clothing _ _ _ => rfl
    | stationery _ _ => rfl
    | accessory _ _ => exact absurd (by simp [Product.getType, hv]) hp
  rw [hbase]
  unfold Product.baseDiscountedPrice
  constructor
  · rintro ⟨h0, h100⟩
    rw [if_neg (by rintro (h | h) <;> linarith)]
  · intro h
    rw [if_pos h]

/-- Witness of C13: the shirt at price 20 with a discount of 25 costs 15, and a
discount of 101 is refused. -/
theorem discount_nonAccessory_witness :
    cottonShirt.getType ≠ "Accessory" ∧
    cottonShirt.calculateDiscountedPrice 25 = .ok 15 ∧
    cottonShirt.calculateDiscountedPrice 101 = .error (.invalidDiscount 101) :=
  ⟨by decide,
    ((discount_nonAccessory cottonShirt 25 (by decide)).1 (by norm_num)).trans (by decide!),
    (discount_nonAccessory cottonShirt 101 (by decide)).2 (by norm_num)⟩

/-- C14: an `Accessory` of price `p` and a requested discount `d`. When it is not
electronic the result is that of the base formula at `d + 5`: `p * (1 - (d + 5) /
100)` exactly when `0 ≤ d + 5 ≤ 100`, else `InvalidDiscount`; so a request of 96
throws and a request of 95 gives 0. When it is electronic the result is that of
the base formula at `d`. -/
theorem discount_accessory (p : Product) (isElectronic : Bool) (accessoryType : String)
    (d : ℚ) (hv : p.variant = .accessory isElectronic accessoryType) :
    (isElectronic = false →
      p.calculateDiscountedPrice d = p.baseDiscountedPrice (d + 5) ∧
      (0 ≤ d + 5 ∧ d + 5 ≤ 100 →
        p.calculateDiscountedPrice d = .ok (p.price * (1 - (d + 5) / 100))) ∧
      (¬ (0 ≤ d + 5 ∧ d + 5 ≤ 100) →
        p.calculateDiscountedPrice d = .error (.invalidDiscount (d + 5))) ∧
      p.calculateDiscountedPrice 96 = .error (.invalidDiscount 101) ∧
      p.calculateDiscountedPrice 95 = .ok 0) ∧
    (isElectronic = true →
      p.calculateDiscountedPrice d = p.baseDiscountedPrice d ∧
      (0 ≤ d ∧ d ≤ 100 → p.calculateDiscountedPrice d = .ok (p.price * (1 - d / 100))) ∧
      (¬ (0 ≤ d ∧ d ≤ 100) → p.calculateDiscountedPrice d = .error (.invalidDiscount d))) := by
  have hcalc : ∀ x : ℚ, p.calculateDiscountedPrice x
      = p.baseDiscountedPrice (if !isElectronic then x + 5 else x) := by
    intro x
    unfold Product.calculateDiscountedPrice
    rw [hv]
  have hok : ∀ x : ℚ, 0 ≤ x ∧ x ≤ 100 → p.baseDiscountedPrice x = .ok (p.price * (1 - x / 100)) := by
    rintro x ⟨h0, h100⟩
    unfold Product.baseDiscountedPrice
    rw [if_neg (by rintro (h | h) <;> linarith)]
  have herr : ∀ x : ℚ, ¬ (0 ≤ x ∧ x ≤ 100) →
      p.baseDiscountedPrice x = .error (.invalidDiscount x) := by
    intro x h
    unfold Product.baseDiscountedPrice
    rw [if_pos]
    by_contra hcon
    push_neg at hcon
    exact h ⟨hcon.1, hcon.2⟩
  constructor
  · intro he
    subst he
    simp only [hcalc, Bool.not_false, if_true]
    refine ⟨trivial, hok _, herr _, ?_, ?_⟩
    · have := herr (96 + 5) (by norm_num)
      norm_num at this ⊢
      exact this
    · have := hok (95 + 5) (by norm_num)
      norm_num at this ⊢
      exact this
  · intro he
    subst he
    simp only [hcalc, Bool.not_true, Bool.false_eq_true, if_false]
    exact ⟨trivial, hok _, herr _⟩

/-- Witness of C14: a belt at price 200 that is not electronic costs 180 at a
requested discount of 5, and the electronic cable at price 10 costs 9 at 10. -/
theorem discount_accessory_witness :
    leatherBelt.variant = .accessory false "Leather" ∧
    leatherBelt.calculateDiscountedPrice 5 = .ok 180 ∧
    leatherBelt.calculateDiscountedPrice 96 = .error (.invalidDiscount 101) ∧
    leatherBelt.calculateDiscountedPrice 95 = .ok 0 ∧
    usbCable.calculateDiscountedPrice 10 = .ok 9 :=
  ⟨rfl,
    (((discount_accessory leatherBelt false "Leather" 5 rfl).1 rfl).2.1 (by norm_num)).trans
      (by decide!),
    ((discount_accessory leatherBelt false "Leather" 5 rfl).1 rfl).2.2.2.1,
    ((discount_accessory leatherBelt false "Leather" 5 rfl).1 rfl).2.2.2.2,
    (((discount_accessory usbCable true "USB" 10 rfl).2 rfl).2.1 (by norm_num)).trans
      (by decide!)⟩

/-- C15: the constructor of each class with a price `p`: when `0 ≤ p` it builds the
object, whose price is `p`, and the counter `totalProducts` goes up by one; when
`p < 0` it throws `InvalidPrice` and the counter is as before. -/
theorem construct_price (totalProducts : Int) (id n : String) (p : ℚ) (s : Int)
    (sz col mat br type : String) (electronic : Bool) :
    (0 ≤ p →
      Clothing.init totalProducts id n p s sz col mat
        = (.ok ⟨id, n, "Clothing", p, s, .clothing sz col mat⟩, totalProducts + 1) ∧
      Stationery.init totalProducts id n p s br type
        = (.ok ⟨id, n, "Stationery", p, s, .stationery br type⟩, totalProducts + 1) ∧
      Accessory.init totalProducts id n p s electronic type
        = (.ok ⟨id, n, "Accessory", p, s, .accessory electronic type⟩, totalProducts + 1)) ∧
    (p < 0 →
      Clothing.init totalProducts id n p s sz col mat
        = (.error (.invalidPrice p), totalProducts) ∧
      Stationery.init totalProducts id n p s br type
        = (.error (.invalidPrice p), totalProducts) ∧
      Accessory.init totalProducts id n p s electronic type
        = (.error (.invalidPrice p), totalProducts)) := by
  unfold Clothing.init Stationery.init Accessory.init Product.init
  constructor
  · intro h
    simp [not_lt.2 h]
  · intro h
    simp [h]

/-- Witness of C15: a shirt at price 20 is built and the counter goes from 3 to 4;
at price -1 the constructor throws and the counter stays 3. -/
theorem construct_price_witness :
    Clothing.init 3 "C1" "Shirt" 20 5 "M" "Red" "Cotton" = (.ok cottonShirt, 4) ∧
    Clothing.init 3 "C1" "Shirt" (-1) 5 "M" "Red" "Cotton" = (.error (.invalidPrice (-1)), 3) :=
  ⟨((construct_price 3 "C1" "Shirt" 20 5 "M" "Red" "Cotton" "" "" false).1 (by norm_num)).1,
    ((construct_price 3 "C1" "Shirt" (-1) 5 "M" "Red" "Cotton" "" "" false).2 (by norm_num)).1⟩

/-- C16: `setPrice` with a new price `n`: when `0 ≤ n` it does not throw and the
price becomes `n`, with id, name, category, stock and the fields of the class as
they were; when `n < 0` it throws `InvalidPrice` and the product is as it was. -/
theorem setPrice_spec (p : Product) (n : ℚ) :
    (0 ≤ n → p.setPrice n = ⟨none, { p with price := n }⟩) ∧
    (n < 0 → p.setPrice n = ⟨some (.invalidPrice n), p⟩) := by
  unfold Product.setPrice
  constructor
  · intro h
    rw [if_neg (not_lt.2 h)]
  · intro h
    rw [if_pos h]

/-- Witness of C16: the shirt at price 20 takes the price 30 and refuses -1. -/
theorem setPrice_spec_witness :
    cottonShirt.setPrice 30 = ⟨none, { cottonShirt with price := 30 }⟩ ∧
    cottonShirt.setPrice (-1) = ⟨some (.invalidPrice (-1)), cottonShirt⟩ :=
  ⟨(setPrice_spec cottonShirt 30).1 (by norm_num), (setPrice_spec cottonShirt (-1)).2 (by norm_num)⟩

/-! ## Container queries -/

theorem take_set_self {α : Type} (v : List α) (first : Nat) (x : α) (h : first < v.length) :
    (v.set first x).take (first + 1) = v.take first ++ [x] := by
  induction v generalizing first with
  | nil => simp at h
  | cons a v ih =>
    cases first with
    | zero => simp
    | succ n =>
      simp only [List.length_cons, Nat.add_lt_add_iff_right] at h
      simp [ih n h]

/-- The loop of `std::remove_if` moves the elements the predicate does not reject
to the front, in their order, and returns the position after them. -/
theorem removeIfLoop_spec {α : Type} (pred : α → Bool) (scan v : List α) (first : Nat)
    (h : first + scan.length ≤ v.length) :
    (removeIfLoop pred scan v first).2 = first + (scan.filter (fun x => !pred x)).length ∧
    (removeIfLoop pred scan v first).1.take (removeIfLoop pred scan v first).2
      = v.take first ++ scan.filter (fun x => !pred x) := by
  induction scan generalizing v first with
  | nil => simp [removeIfLoop]
  | cons x scan ih =>
    simp only [List.length_cons] at h
    unfold removeIfLoop
    by_cases hx : pred x = true
    · rw [if_pos hx]
      have := ih v first (by omega)
      simpa [List.filter_cons, hx] using this
    · rw [if_neg hx]
      have := ih (v.set first x) (first + 1) (by simp; omega)
      rw [take_set_self v first x (by omega)] at this
      have hx2 : pred x = false := by simpa using hx
      simp only [List.filter_cons, hx2, Bool.not_false, if_true, List.length_cons]
      constructor
      · rw [this.1]; omega
      · rw [this.2]; simp

theorem removeIf_spec {α : Type} (pred : α → Bool) (v : List α) :
    (removeIf pred v).2 = (v.filter (fun x => !pred x)).length ∧
    (removeIf pred v).1.take (removeIf pred v).2 = v.filter (fun x => !pred x) := by
  have := removeIfLoop_spec pred v v 0 (by omega)
  simpa [removeIf] using this

theorem filter_length_eq_iff {α : Type} (q : α → Bool) (l : List α) :
    (l.filter q).length = l.length ↔ ∀ x ∈ l, q x = true := by
  induction l with
  | nil => simp
  | cons a l ih =>
    by_cases ha : q a = true
    · simp [List.filter_cons, ha, ih]
    · have hle := List.length_filter_le q l
      simp [List.filter_cons, ha]
      omega

/-- C17: `removeProduct` leaves exactly the products whose id differs from the
given id, in their order, so every entry with that id goes, duplicates too; the
name of the inventory stays; it prints that the product was removed when some
product had the id and that it was not found when none had, and the two texts
differ. -/
theorem removeProduct_spec (inv : Inventory) (id : String) :
    (inv.removeProduct id).1.products = inv.products.filter (fun p => p.productId != id) ∧
    (inv.removeProduct id).1.inventoryName = inv.inventoryName ∧
    ((inv.removeProduct id).2 = "Product " ++ id ++ " removed successfully.\n" ↔
      ∃ p ∈ inv.products, p.productId = id) ∧
    ((inv.removeProduct id).2 = "Product not found.\n" ↔
      ∀ p ∈ inv.products, p.productId ≠ id) := by
  have hspec := removeIf_spec (fun p : Product => p.productId == id) inv.products
  have hfun : (fun p : Product => !(p.productId == id)) = (fun p : Product => p.productId != id) :=
    rfl
  rw [hfun] at hspec
  have hmsg : "Product " ++ id ++ " removed successfully.\n" ≠ "Product not found.\n" := by
    intro heq
    have hlen := congrArg String.length heq
    simp only [String.length_append] at hlen
    have h1 : ("Product " : String).length = 8 := by decide
    have h2 : (" removed successfully.\n" : String).length = 23 := by decide
    have h3 : ("Product not found.\n" : String).length = 19 := by decide
    omega
  have hall : (inv.products.filter (fun p => p.productId != id)).length = inv.products.length ↔
      ∀ p ∈ inv.products, p.productId ≠ id := by
    rw [filter_length_eq_iff]
    simp
  unfold Inventory.removeProduct
  dsimp only
  by_cases hmatch : ∀ p ∈ inv.products, p.productId ≠ id
  · have hlen := hall.2 hmatch
    rw [if_neg (by rw [hspec.1, hlen]; simp)]
    refine ⟨?_, rfl, ?_, ?_⟩
    · symm
      rw [List.filter_eq_self]
      intro p hp
      simpa using hmatch p hp
    · constructor
      · intro h; exact absurd h.symm hmsg
      · rintro ⟨p, hp, hid⟩; exact absurd hid (hmatch p hp)
    · exact ⟨fun _ => hmatch, fun _ => rfl⟩
  · have hlen : (inv.products.filter (fun p => p.productId != id)).length ≠ inv.products.length :=
      fun h => hmatch (hall.1 h)
    rw [if_pos (by rw [hspec.1]; exact hlen)]
    refine ⟨hspec.2, rfl, ?_, ?_⟩
    · constructor
      · intro _
        by_contra hcon
        apply hmatch
        intro p hp hid
        exact hcon ⟨p, hp, hid⟩
      · intro _; rfl
    · constructor
      · intro h; exact absurd h hmsg
      · intro h; exact absurd h hmatch

/-- Witness of C17: in an inventory where the id C1 occurs twice, removing C1
leaves the pen and the cable and reports the removal; removing Z leaves all
four products and reports that nothing was found. -/
theorem removeProduct_spec_witness :
    doubledInventory.removeProduct "C1"
      = ({ doubledInventory with products := [inkPen, usbCable] },
          "Product C1 removed successfully.\n") ∧
    doubledInventory.removeProduct "Z" = (doubledInventory, "Product not found.\n") ∧
    (doubledInventory.removeProduct "C1").1.products
      = doubledInventory.products.filter (fun p => p.productId != "C1") :=
  ⟨by decide!, by decide!, (removeProduct_spec doubledInventory "C1").1⟩

theorem deref_eq_getElem (products : List Product) (i : Nat) (h : i < products.length) :
    deref products i = products[i] := by
  unfold deref
  exact List.getD_eq_getElem _ _ h

/-- C18: `findProduct` returns `nullptr` exactly when no product of the container
has the id; otherwise it returns a reference into the container to a product
with the id, and no product before it has the id. -/
theorem findProduct_spec (inv : Inventory) (id : String) :
    (inv.findProduct id = none ↔ ∀ p ∈ inv.products, p.productId ≠ id) ∧
    (∀ i, inv.findProduct id = some i →
      i < inv.products.length ∧ (deref inv.products i).productId = id ∧
      ∀ j, j < i → (deref inv.products j).productId ≠ id) := by
  unfold Inventory.findProduct
  dsimp only
  constructor
  · constructor
    · intro h
      split at h
      · exact absurd h (by simp)
      · rename_i hlt
        have hlen : inv.products.findIdx (fun p => p.productId == id) = inv.products.length :=
          Nat.le_antisymm (List.findIdx_le_length _) (Nat.le_of_not_lt hlt)
        rw [List.findIdx_eq_length] at hlen
        intro p hp
        simpa using hlen p hp
    · intro h
      rw [if_neg]
      rw [List.findIdx_lt_length]
      rintro ⟨p, hp, hid⟩
      exact h p hp (by simpa using hid)
  · intro i h
    split at h
    · rename_i hlt
      have hi : inv.products.findIdx (fun p => p.productId == id) = i := Option.some.inj h
      subst hi
      refine ⟨hlt, ?_, ?_⟩
      · rw [deref_eq_getElem _ _ hlt]
        have := @List.findIdx_getElem Product (fun p : Product => p.productId == id)
          inv.products hlt
        simpa using this
      · intro j hj
        rw [deref_eq_getElem _ _ (Nat.lt_trans hj hlt)]
        have := List.not_of_lt_findIdx hj
        simpa using this
    · exact absurd h (by simp)

/-- Witness of C18: in an inventory where the id C1 occurs at positions 1 and 3,
`findProduct` returns position 1; the id Z is not found. -/
theorem findProduct_spec_witness :
    doubledInventory.findProduct "C1" = some 1 ∧
    deref doubledInventory.products 1 = cottonShirt ∧
    doubledInventory.findProduct "Z" = none ∧
    (1 < doubledInventory.products.length ∧ (deref doubledInventory.products 1).productId = "C1" ∧
      ∀ j, j < 1 → (deref doubledInventory.products j).productId ≠ "C1") :=
  ⟨by decide!, by decide!, by decide!,
    (findProduct_spec doubledInventory "C1").2 1 (by decide!)⟩

theorem copyIf_eq {α : Type} (condition : α → Bool) (l result : List α) :
    copyIf condition l result = result ++ l.filter condition := by
  induction l generalizing result with
  | nil => simp [copyIf]
  | cons x rest ih =>
    unfold copyIf
    by_cases hx : condition x = true
    · rw [if_pos hx, ih]
      simp [List.filter_cons, hx]
    · rw [if_neg hx, ih]
      simp [List.filter_cons, hx]

/-- C19: `filterProducts` leaves the inventory as it is and returns the products
that satisfy the predicate: the result is the container with the other products
taken out, so the order is that of the container; a product is in the result
exactly when it is in the container and satisfies the predicate, and then it
occurs in the result as many times as in the container. -/
theorem filterProducts_spec (inv : Inventory) (condition : Product → Bool) :
    (inv.filterProducts condition).1 = inv ∧
    (inv.filterProducts condition).2 = inv.products.filter condition ∧
    List.Sublist (inv.filterProducts condition).2 inv.products ∧
    (∀ p, p ∈ (inv.filterProducts condition).2 ↔ p ∈ inv.products ∧ condition p = true) ∧
    (∀ p, condition p = true →
      (inv.filterProducts condition).2.count p = inv.products.count p) ∧
    (∀ p, condition p = false → (inv.filterProducts condition).2.count p = 0) := by
  have h : (inv.filterProducts condition).2 = inv.products.filter condition := by
    simp [Inventory.filterProducts, copyIf_eq]
  refine ⟨rfl, h, ?_, ?_, ?_, ?_⟩
  · rw [h]; exact List.filter_sublist _
  · intro p; rw [h, List.mem_filter]
  · intro p hp
    rw [h, List.count_filter hp]
  · intro p hp
    rw [h, List.count_eq_zero]
    intro hmem
    rw [List.mem_filter] at hmem
    rw [hmem.2] at hp
    exact absurd hp (by simp)

/-- Witness of C19: the products with a stock below 4, out of the shirt (5), the
pen (3), the cable (2) and the pen again, are the pen, the cable and the pen. -/
theorem filterProducts_spec_witness :
    (Inventory.mk [cottonShirt, inkPen, usbCable, inkPen] "iShop").filterProducts
        (fun p => decide (p.stock < 4))
      = (Inventory.mk [cottonShirt, inkPen, usbCable, inkPen] "iShop",
          [inkPen, usbCable, inkPen]) ∧
    ((Inventory.mk [cottonShirt, inkPen, usbCable, inkPen] "iShop").filterProducts
        (fun p => decide (p.stock < 4))).2.count inkPen = 2 :=
  ⟨by decide!,
    ((filterProducts_spec (Inventory.mk [cottonShirt, inkPen, usbCable, inkPen] "iShop")
      (fun p => decide (p.stock < 4))).2.2.2.2.1 inkPen (by decide)).trans (by decide!)⟩

theorem foldl_add_eq_sum {α β : Type} [AddCommMonoid β] (f : α → β) (l : List α) (a : β) :
    l.foldl (fun sum x => sum + f x) a = a + (l.map f).sum := by
  induction l generalizing a with
  | nil => simp
  | cons x l ih =>
    simp only [List.foldl_cons, List.map_cons, List.sum_cons]
    rw [ih, add_assoc]

/-- The `int` accumulation of stocks from `a` is exact while every running sum is
an `int`. -/
theorem foldl_addInt_eq_sum (l : List Product) (a : Int)
    (h : ∀ n ≤ l.length, isInt32 (a + ((l.take n).map (fun p => p.stock)).sum)) :
    l.foldl (fun sum p => addInt sum p.stock) a = a + (l.map (fun p => p.stock)).sum := by
  induction l generalizing a with
  | nil => simp
  | cons x l ih =>
    have h1 : addInt a x.stock = a + x.stock := by
      apply addInt_eq
      simpa using h 1 (by simp)
    simp only [List.foldl_cons, List.map_cons, List.sum_cons, h1]
    rw [ih, add_assoc]
    intro n hn
    have := h (n + 1) (by simpa using hn)
    simpa [add_assoc] using this

/-- C20 (amended): `getTotalStock` is the sum of the stock of all products provided
every running sum, of the stock of the first `n` products for each `n` up to
the number of products, is an `int`; `getTotalValue` is the sum of `price * stock` of all products; both are 0
for an empty inventory. -/
theorem totals_spec (inv : Inventory) :
    ((∀ n ≤ inv.products.length,
        isInt32 (((inv.products.take n).map (fun p => p.stock)).sum)) →
      inv.getTotalStock = (inv.products.map (fun p => p.stock)).sum) ∧
    inv.getTotalValue = (inv.products.map (fun p => p.price * (p.stock : ℚ))).sum ∧
    (inv.products = [] → inv.getTotalStock = 0 ∧ inv.getTotalValue = 0) := by
  have h1 : (∀ n ≤ inv.products.length,
        isInt32 (((inv.products.take n).map (fun p => p.stock)).sum)) →
      inv.getTotalStock = (inv.products.map (fun p => p.stock)).sum := by
    intro h
    unfold Inventory.getTotalStock
    rw [foldl_addInt_eq_sum _ _ (by simpa using h)]
    simp
  have h2 : inv.getTotalValue = (inv.products.map (fun p => p.price * (p.stock : ℚ))).sum := by
    unfold Inventory.getTotalValue
    rw [foldl_add_eq_sum (fun p : Product => p.price * (p.stock : ℚ))]
    simp
  refine ⟨h1, h2, fun h => ?_⟩
  rw [h2]
  unfold Inventory.getTotalStock
  rw [h]
  simp

/-- Witness of C20 (amended), the example of the specification: products of (price
10, stock 2) and (price 5, stock 3) have a total value of 35 and a total stock
of 5; the running sums of the stock are 0, 2 and 5. -/
theorem totals_spec_witness :
    (∀ n ≤ twoItemInventory.products.length,
      isInt32 (((twoItemInventory.products.take n).map (fun p => p.stock)).sum)) ∧
    twoItemInventory.getTotalValue = 35 ∧ twoItemInventory.getTotalStock = 5 ∧
    (twoItemInventory.products.map (fun p => (p.price, p.stock))) = [(10, 2), (5, 3)] :=
  ⟨by decide, (totals_spec twoItemInventory).2.1.trans (by decide!),
    ((totals_spec twoItemInventory).1 (by decide)).trans (by decide!), by decide!⟩

/-- Counterexample to C20 as stated: two products with the greatest `int`,
2147483647, in stock. The sum of the stock is 4294967294; `getTotalStock`
returns -2, the `int` the sum has wrapped around to. -/
theorem totalStock_overflow_counterexample :
    fullInventory.products.map (fun p => p.stock) = [2147483647, 2147483647] ∧
    (fullInventory.products.map (fun p => p.stock)).sum = 4294967294 ∧
    fullInventory.getTotalStock = -2 ∧
    fullInventory.getTotalStock ≠ (fullInventory.products.map (fun p => p.stock)).sum := by
  decide

/-! ## Missing and empty files -/

/-- C21: `loadFromFile` on a file that cannot be opened throws nothing and leaves
the inventory as it is; on a file that opens and is empty it leaves the
container empty; and when the file opens, what the call throws and the contents
of the container afterwards are the same whatever the container held before.
The name of the inventory is never touched. -/
theorem loadFromFile_frame (inv other : Inventory) (contents : String) :
    inv.loadFromFile none = ⟨none, inv⟩ ∧
    inv.loadFromFile (some "") = ⟨none, { inv with products := [] }⟩ ∧
    (inv.loadFromFile (some contents)).thrown = (other.loadFromFile (some contents)).thrown ∧
    (inv.loadFromFile (some contents)).state.products
      = (other.loadFromFile (some contents)).state.products ∧
    (inv.loadFromFile (some contents)).state.inventoryName = inv.inventoryName := by
  refine ⟨rfl, ?_, rfl, rfl, rfl⟩
  have h : split "" '\n' = [] := by decide
  simp only [Inventory.loadFromFile, h, loadLines]

/-- Witness of C21: an inventory holding the shirt keeps it when the file is
missing, is empty after an empty file, and holds only the cable after a file
with the line of the cable. -/
theorem loadFromFile_frame_witness :
    oneShirtShop.mainInventory.loadFromFile none = ⟨none, oneShirtShop.mainInventory⟩ ∧
    (oneShirtShop.mainInventory.loadFromFile (some "")).state.products = [] ∧
    (oneShirtShop.mainInventory.loadFromFile
      (some "Accessory,A1,Cable,10,2,1,USB\n")).state.products = [usbCable] :=
  ⟨(loadFromFile_frame oneShirtShop.mainInventory oneShirtShop.mainInventory "").1,
    congrArg (fun r => r.state.products)
      (loadFromFile_frame oneShirtShop.mainInventory oneShirtShop.mainInventory "").2.1,
    by decide!⟩

/-! ## Quantities that are not positive -/

/-- C24: `addItem` with a quantity that is not positive throws `invalid_argument`
whatever the stock of the product is, and leaves the order (items, total) and
the products (stock) as they were. -/
theorem addItem_invalid_quantity (o : Order) (products : List Product) (product : Nat)
    (quantity : Int) (hq : quantity ≤ 0) :
    o.addItem products product quantity =
      ⟨some (.invalidArgument "Quantity must be positive"), (o, products)⟩ := by
  unfold Order.addItem
  rw [if_pos hq]

/-- Witness of C24: a quantity of 0 and a quantity of -6 on the shirt, 5 in
stock: both are refused for the quantity, the second one not for the stock. -/
theorem addItem_invalid_quantity_witness :
    (Order.init 1000 "Bob" 0).1.addItem [cottonShirt] 0 0 =
      ⟨some (.invalidArgument "Quantity must be positive"),
        ((Order.init 1000 "Bob" 0).1, [cottonShirt])⟩ ∧
    (Order.init 1000 "Bob" 0).1.addItem [{ cottonShirt with stock := -9 }] 0 (-6) =
      ⟨some (.invalidArgument "Quantity must be positive"),
        ((Order.init 1000 "Bob" 0).1, [{ cottonShirt with stock := -9 }])⟩ :=
  ⟨addItem_invalid_quantity _ _ 0 0 (by decide),
    addItem_invalid_quantity _ _ 0 (-6) (by decide)⟩

/-! ## The most expensive product -/

/-- The loop of `std::max_element` returns a position of a greatest element, and
the first such position: nothing at or after the start is greater, and what
comes before the answer, from the start of the scan on, is smaller. `le` is the
order `less` is the strict part of. -/
theorem maxElementLoop_spec (pre rest : List Product) (largest : Nat) (top : Product)
    (hl : largest < pre.length) (htop : deref pre largest = top)
    (hmax : ∀ j, j < pre.length → (deref pre j).price ≤ top.price)
    (hfirst : ∀ j, j < largest → (deref pre j).price < top.price) :
    maxElementLoop (fun a b : Product => decide (a.price < b.price)) rest pre.length largest top
        < (pre ++ rest).length ∧
    (∀ j, j < (pre ++ rest).length → (deref (pre ++ rest) j).price
      ≤ (deref (pre ++ rest) (maxElementLoop (fun a b : Product => decide (a.price < b.price))
          rest pre.length largest top)).price) ∧
    (∀ j, j < maxElementLoop (fun a b : Product => decide (a.price < b.price)) rest pre.length
        largest top →
      (deref (pre ++ rest) j).price
        < (deref (pre ++ rest) (maxElementLoop (fun a b : Product => decide (a.price < b.price))
            rest pre.length largest top)).price) := by
  induction rest generalizing pre largest top with
  | nil =>
    simp only [maxElementLoop, List.append_nil]
    rw [htop]
    exact ⟨hl, hmax, hfirst⟩
  | cons x rest ih =>
    have hderef : ∀ j, j < pre.length → deref (pre ++ [x]) j = deref pre j := by
      intro j hj
      unfold deref
      rw [List.getD_eq_getElem?_getD, List.getD_eq_getElem?_getD, List.getElem?_append_left hj]
    have hx : deref (pre ++ [x]) pre.length = x := by
      unfold deref
      rw [List.getD_eq_getElem?_getD, List.getElem?_append_right (le_refl _)]
      simp
    have happ : pre ++ x :: rest = (pre ++ [x]) ++ rest := by simp
    have hlen : (pre ++ [x]).length = pre.length + 1 := by simp
    unfold maxElementLoop
    by_cases hlt : top.price < x.price
    · rw [if_pos (by simpa using hlt), happ, ← hlen]
      apply ih (pre ++ [x]) pre.length x (by omega) hx
      · intro j hj
        rw [hlen] at hj
        by_cases hj2 : j < pre.length
        · rw [hderef j hj2]; exact le_trans (hmax j hj2) (le_of_lt hlt)
        · have : j = pre.length := by omega
          rw [this, hx]
      · intro j hj
        rw [hderef j hj]
        exact lt_of_le_of_lt (hmax j hj) hlt
    · rw [if_neg (by simpa using hlt), happ, ← hlen]
      apply ih (pre ++ [x]) largest top (by omega) (by rw [hderef largest hl]; exact htop)
      · intro j hj
        rw [hlen] at hj
        by_cases hj2 : j < pre.length
        · rw [hderef j hj2]; exact hmax j hj2
        · have : j = pre.length := by omega
          rw [this, hx]
          exact not_lt.1 hlt
      · intro j hj
        rw [hderef j (by omega)]
        exact hfirst j hj

/-- C23: on an inventory that is not empty the report picks a product of the
container whose price is at least the price of every product of the container,
and every product before it in the container is cheaper: of the products at the
greatest price it is the first. -/
theorem mostExpensive_spec (inventory : Inventory) (h : inventory.products ≠ []) :
    ∃ i, InventoryStatistics.mostExpensive inventory = some i ∧
      i < inventory.products.length ∧
      (∀ j, j < inventory.products.length →
        (deref inventory.products j).price ≤ (deref inventory.products i).price) ∧
      (∀ j, j < i → (deref inventory.products j).price < (deref inventory.products i).price) := by
  unfold InventoryStatistics.mostExpensive
  cases hp : inventory.products with
  | nil => exact absurd hp h
  | cons x rest =>
    have := maxElementLoop_spec [x] rest 0 x (by simp) rfl
      (by intro j hj; simp at hj; subst hj; exact le_refl _)
      (by intro j hj; omega)
    simp only [List.isEmpty_cons, Bool.false_eq_true, if_false, maxElement]
    exact ⟨_, rfl, this⟩

/-- Witness of C23: with the cable at 10, a shirt at 20, the pen at 19.99 and
another shirt at 20, the report picks position 1, the first of the two shirts. -/
theorem mostExpensive_spec_witness :
    tiedInventory.products ≠ [] ∧
    InventoryStatistics.mostExpensive tiedInventory = some 1 ∧
    (tiedInventory.products.map (fun p => p.price)) = [10, 20, 1999 / 100, 20] ∧
    ∃ i, InventoryStatistics.mostExpensive tiedInventory = some i ∧
      i < tiedInventory.products.length ∧
      (∀ j, j < tiedInventory.products.length →
        (deref tiedInventory.products j).price ≤ (deref tiedInventory.products i).price) ∧
      (∀ j, j < i →
        (deref tiedInventory.products j).price < (deref tiedInventory.products i).price) :=
  ⟨by decide, by decide!, by decide!, mostExpensive_spec tiedInventory (by decide)⟩

/-! ## Decoding an order line -/

theorem getElem?_eq_some_getD (tokens : List String) (i : Nat) (h : i < tokens.length) :
    tokens[i]? = some (tokens.getD i "") := by
  rw [List.getD_eq_getElem?_getD, List.getElem?_eq_getElem h]
  rfl

/-- The item loop never reads a position outside the token list. -/
theorem Order.readItemsChecked_eq (tokens : List String) (inventory : Inventory) (n index : Nat)
    (items : List OrderItem) :
    Order.readItemsChecked tokens inventory n index items
      = some (Order.readItems tokens inventory n index items) := by
  induction n generalizing index items with
  | zero => rfl
  | succ n ih =>
    unfold Order.readItemsChecked Order.readItems
    by_cases hg : index + 2 < tokens.length
    · rw [if_pos hg, if_pos hg, getElem?_eq_some_getD tokens index (by omega),
        getElem?_eq_some_getD tokens (index + 1) (by omega)]
      dsimp only
      cases stoi (tokens.getD (index + 1) "") with
      | error e => rfl
      | ok quantity =>
        dsimp only
        cases inventory.findProduct (tokens.getD index "") with
        | none => exact ih _ _
        | some product => exact ih _ _
    · rw [if_neg hg, if_neg hg]
      exact ih _ _

/-- The item loop adds at most one item for each iteration and for each group of
three tokens from `index` on. -/
theorem Order.readItems_length (tokens : List String) (inventory : Inventory) (n index : Nat)
    (items : List OrderItem) :
    (Order.readItems tokens inventory n index items).state.length
      ≤ items.length + min n ((tokens.length - index) / 3) := by
  induction n generalizing index items with
  | zero => simp [Order.readItems]
  | succ n ih =>
    unfold Order.readItems
    by_cases hg : index + 2 < tokens.length
    · rw [if_pos hg]
      cases stoi (tokens.getD (index + 1) "") with
      | error e => simp
      | ok quantity =>
        dsimp only
        cases inventory.findProduct (tokens.getD index "") with
        | none =>
          have := ih (index + 3) items
          dsimp only
          omega
        | some product =>
          have := ih (index + 3) (items ++ [OrderItem.init inventory.products product quantity])
          simp only [List.length_append, List.length_singleton] at this
          dsimp only
          omega
    · rw [if_neg hg]
      have := ih index items
      omega

/-- C26: `Order::fromCSV` is a total function, so it returns on every line, and it
never reads a position outside the token list: the run with every `tokens[...]`
checked ends as the run of the method does. When the line has at least five
tokens and the item count converts, the order gets at most
`min (max itemCount 0) ((tokens - 5) / 3)` items, also for a negative count and
for a count above the number of groups on the line. -/
theorem fromCSV_safe (o : Order) (counter : Int) (line : String) (inventory : Inventory) :
    o.fromCSVChecked counter line inventory = some (o.fromCSV counter line inventory) ∧
    (∀ itemCount : Int, 5 ≤ (split line ',').length →
      stoi ((split line ',').getD 4 "") = .ok itemCount →
      (((o.fromCSV counter line inventory).state.1.items.length : Int)
        ≤ (o.items.length : Int)
          + min (max itemCount 0) ((((split line ',').length : Int) - 5) / 3))) := by
  constructor
  · unfold Order.fromCSVChecked Order.fromCSV
    dsimp only
    by_cases h5 : 5 ≤ (split line ',').length
    · rw [if_pos h5, if_pos h5, getElem?_eq_some_getD _ 0 (by omega),
        getElem?_eq_some_getD _ 1 (by omega), getElem?_eq_some_getD _ 2 (by omega),
        getElem?_eq_some_getD _ 3 (by omega), getElem?_eq_some_getD _ 4 (by omega)]
      dsimp only
      cases stoi ((split line ',').getD 0 "") with
      | error e => rfl
      | ok orderId =>
        dsimp only
        cases stod ((split line ',').getD 2 "") with
        | error e => rfl
        | ok totalAmount =>
          dsimp only
          cases stol ((split line ',').getD 3 "") with
          | error e => rfl
          | ok orderDate =>
            dsimp only
            cases stoi ((split line ',').getD 4 "") with
            | error e => rfl
            | ok itemCount =>
              dsimp only
              rw [Order.readItemsChecked_eq]
              dsimp only
              cases (Order.readItems (split line ',') inventory itemCount.toNat 5 o.items).thrown
                <;> rfl
    · rw [if_neg h5, if_neg h5]
  · intro itemCount h5 hcount
    have hlen := Order.readItems_length (split line ',') inventory itemCount.toNat 5
    unfold Order.fromCSV
    dsimp only
    rw [if_pos h5, hcount]
    cases stoi ((split line ',').getD 0 "") with
    | error e =>
      dsimp only
      have : 0 ≤ min (max itemCount 0) ((((split line ',').length : Int) - 5) / 3) := by omega
      omega
    | ok orderId =>
      dsimp only
      cases stod ((split line ',').getD 2 "") with
      | error e =>
        dsimp only
        have : 0 ≤ min (max itemCount 0) ((((split line ',').length : Int) - 5) / 3) := by omega
        omega
      | ok totalAmount =>
        dsimp only
        cases stol ((split line ',').getD 3 "") with
        | error e =>
          dsimp only
          have : 0 ≤ min (max itemCount 0) ((((split line ',').length : Int) - 5) / 3) := by omega
          omega
        | ok orderDate =>
          dsimp only
          have hl := hlen o.items
          have hres : ∀ (r : Outcome (Order × Int)) (items : List OrderItem),
              r.state.1.items = items →
              (items.length ≤ o.items.length
                + min itemCount.toNat (((split line ',').length - 5) / 3)) →
              ((r.state.1.items.length : Int) ≤ (o.items.length : Int)
                + min (max itemCount 0) ((((split line ',').length : Int) - 5) / 3)) := by
            intro r items hr hle
            rw [hr]
            omega
          split
          · exact hres _ _ rfl hl
          · exact hres _ _ rfl hl

/-- Witness of C26: the line declares 5 items and holds two full groups and two
more tokens; it gives one item (the product ZZ is unknown), within the bound
`min 5 ((13 - 5) / 3) = 2`. With a declared count of -5 it gives none. -/
theorem fromCSV_safe_witness :
    (split "7,A,1,1,5,C1,1,1,ZZ,2,2,C1,2" ',').length = 13 ∧
    stoi ((split "7,A,1,1,5,C1,1,1,ZZ,2,2,C1,2" ',').getD 4 "") = .ok 5 ∧
    ((Order.init 1000 "" 0).1.fromCSV 1001 "7,A,1,1,5,C1,1,1,ZZ,2,2,C1,2"
      oneShirtShop.mainInventory).state.1.items = [⟨0, 1, 20⟩] ∧
    ((Order.init 1000 "" 0).1.fromCSV 1001 "7,A,1,1,-5,C1,1,1,ZZ,2,2,C1,2"
      oneShirtShop.mainInventory).state.1.items = [] ∧
    ((((Order.init 1000 "" 0).1.fromCSV 1001 "7,A,1,1,5,C1,1,1,ZZ,2,2,C1,2"
      oneShirtShop.mainInventory).state.1.items.length : Int)
        ≤ (((Order.init 1000 "" 0).1.items.length : Nat) : Int)
          + min (max 5 0) ((((split "7,A,1,1,5,C1,1,1,ZZ,2,2,C1,2" ',').length : Int) - 5) / 3)) :=
  ⟨by decide, by decide, by decide!, by decide!,
    (fromCSV_safe (Order.init 1000 "" 0).1 1001 "7,A,1,1,5,C1,1,1,ZZ,2,2,C1,2"
      oneShirtShop.mainInventory).2 5 (by decide) (by decide)⟩

/-- The item loop on the tokens of well-formed groups: every group whose product
the inventory has gives an item, in the order of the groups. -/
theorem Order.readItems_groups (inventory : Inventory) (groups : List ItemGroup)
    (pre : List String) (items : List OrderItem)
    (hq : ∀ g ∈ groups, stoi g.quantityText = .ok g.quantity) :
    Order.readItems (pre ++ groups.flatMap ItemGroup.tokens) inventory groups.length pre.length
        items
      = ⟨none, items ++ groups.filterMap (ItemGroup.decode inventory)⟩ := by
  induction groups generalizing pre items with
  | nil => simp [Order.readItems]
  | cons g gs ih =>
    have htok : pre ++ (g :: gs).flatMap ItemGroup.tokens
        = (pre ++ g.tokens) ++ gs.flatMap ItemGroup.tokens := by
      simp [List.flatMap_cons]
    have hlen : (pre ++ g.tokens).length = pre.length + 3 := by
      simp [ItemGroup.tokens]
    have hguard : pre.length + 2 < (pre ++ (g :: gs).flatMap ItemGroup.tokens).length := by
      rw [htok, List.length_append, hlen]; omega
    have hpid : (pre ++ (g :: gs).flatMap ItemGroup.tokens).getD pre.length "" = g.productId := by
      rw [List.getD_eq_getElem?_getD, List.getElem?_append_right (le_refl _)]
      simp [List.flatMap_cons, ItemGroup.tokens]
    have hqt : (pre ++ (g :: gs).flatMap ItemGroup.tokens).getD (pre.length + 1) ""
        = g.quantityText := by
      rw [List.getD_eq_getElem?_getD, List.getElem?_append_right (by omega)]
      simp [List.flatMap_cons, ItemGroup.tokens]
    have hgs : ∀ g2 ∈ gs, stoi g2.quantityText = .ok g2.quantity :=
      fun g2 h2 => hq g2 (by simp [h2])
    rw [List.length_cons, Order.readItems, if_pos hguard, hqt, hq g (by simp), hpid]
    dsimp only
    cases hfind : inventory.findProduct g.productId with
    | none =>
      dsimp only
      rw [htok, ← hlen, ih _ _ hgs]
      simp [List.filterMap_cons, ItemGroup.decode, hfind]
    | some product =>
      dsimp only
      rw [htok, ← hlen, ih _ _ hgs]
      simp [List.filterMap_cons, ItemGroup.decode, hfind]

/-- C22: on a well-formed order line, a header of five tokens, the count of the
groups among them, and three tokens for each group, all numeric tokens
converting, `Order::fromCSV` does not throw; the order gets the id, customer and
date of the header, the total of the header as it stands, and after the items
it had one item for each group whose product id the inventory has, in the order
of the groups, with the quantity of the group; a group whose product id is not
found gives no item. The total is not recomputed: a line whose only item is
dropped keeps its total of 65 over an empty list of items. -/
theorem fromCSV_wellFormed :
    (∀ (o : Order) (counter : Int) (line : String) (inventory : Inventory)
        (idText customer totalText dateText countText : String) (orderId : Int) (total : ℚ)
        (date : Int) (groups : List ItemGroup),
      split line ',' = [idText, customer, totalText, dateText, countText]
        ++ groups.flatMap ItemGroup.tokens →
      stoi idText = .ok orderId → stod totalText = .ok total → stol dateText = .ok date →
      stoi countText = .ok (groups.length : Int) →
      (∀ g ∈ groups, stoi g.quantityText = .ok g.quantity) →
      o.fromCSV counter line inventory
        = ⟨none, ({ orderId := orderId, customerName := customer,
                    items := o.items ++ groups.filterMap (ItemGroup.decode inventory),
                    totalAmount := total, orderDate := date },
                  if orderId > counter then orderId else counter)⟩) ∧
    (∀ (inventory : Inventory) (g : ItemGroup),
      (ItemGroup.decode inventory g = none ↔ inventory.findProduct g.productId = none) ∧
      (∀ item, ItemGroup.decode inventory g = some item →
        item.quantity = g.quantity ∧
        inventory.findProduct g.productId = some item.product)) ∧
    (((Order.init 1000 "" 0).1.fromCSV 1001 "1500,Bob,65,1700000000,1,ZZ,1,65"
        oneShirtShop.mainInventory).state.1.totalAmount = 65 ∧
      ((Order.init 1000 "" 0).1.fromCSV 1001 "1500,Bob,65,1700000000,1,ZZ,1,65"
        oneShirtShop.mainInventory).state.1.items = [] ∧
      ((Order.init 1000 "" 0).1.fromCSV 1001 "1500,Bob,65,1700000000,1,ZZ,1,65"
        oneShirtShop.mainInventory).state.1.itemsTotal = 0) := by
  refine ⟨?_, ?_, by decide!⟩
  · intro o counter line inventory idText customer totalText dateText countText orderId total
      date groups hsplit hid htotal hdate hcount hq
    have hloop := Order.readItems_groups inventory groups
      [idText, customer, totalText, dateText, countText] o.items hq
    have h5 : [idText, customer, totalText, dateText, countText].length = 5 := rfl
    rw [h5] at hloop
    unfold Order.fromCSV
    dsimp only
    rw [hsplit, if_pos (by simp)]
    simp only [List.cons_append, List.nil_append, List.getD_cons_succ, List.getD_cons_zero, hid,
      htotal, hdate, hcount, Int.toNat_ofNat] at hloop ⊢
    rw [hloop]
  · intro inventory g
    unfold ItemGroup.decode
    cases inventory.findProduct g.productId with
    | none => simp
    | some product => simp [OrderItem.init]

/-- Witness of C22: of the groups (C1, 3), (ZZ, 1) and (C1, 2) the inventory with
the shirt knows the first and the third; the order gets these two items, in
that order, at the price the shirt has now, and the total of the header, 125. -/
theorem fromCSV_wellFormed_witness :
    (Order.init 1000 "" 0).1.fromCSV 1001 "1500,Bob,125,1700000000,3,C1,3,20,ZZ,1,65,C1,2,0"
        oneShirtShop.mainInventory
      = ⟨none, ({ orderId := 1500, customerName := "Bob", items := [⟨0, 3, 20⟩, ⟨0, 2, 20⟩],
                  totalAmount := 125, orderDate := 1700000000 }, 1500)⟩ :=
  (fromCSV_wellFormed.1 (Order.init 1000 "" 0).1 1001
    "1500,Bob,125,1700000000,3,C1,3,20,ZZ,1,65,C1,2,0" oneShirtShop.mainInventory
    "1500" "Bob" "125" "1700000000" "3" 1500 125 1700000000
    [⟨"C1", "3", 3, "20"⟩, ⟨"ZZ", "1", 1, "65"⟩, ⟨"C1", "2", 2, "0"⟩]
    (by decide) (by decide) (by decide!) (by decide) (by decide) (by decide)).trans (by decide!)

/-! ## Stock conservation -/

theorem sum_map_set (f : Order → Int) (l : List Order) (k : Nat) (a b : Order)
    (h : l.get? k = some a) :
    ((l.set k b).map f).sum = (l.map f).sum - f a + f b := by
  induction l generalizing k with
  | nil => simp at h
  | cons x l ih =>
    cases k with
    | zero =>
      simp only [List.get?_cons_zero, Option.some.injEq] at h
      subst h
      simp only [List.set_cons_zero, List.map_cons, List.sum_cons]
      omega
    | succ k =>
      simp only [List.get?_cons_succ] at h
      simp only [List.set_cons_succ, List.map_cons, List.sum_cons, ih k h]
      omega

theorem Order.reserved_append (i : Nat) (o : Order) (item : OrderItem) (total : ℚ) :
    Order.reserved i { o with items := o.items ++ [item], totalAmount := total }
      = Order.reserved i o + (if item.product = i then item.quantity else 0) := by
  unfold Order.reserved
  by_cases h : item.product = i
  · simp [List.filter_append, List.filter_cons, h]
  · simp [List.filter_append, List.filter_cons, h]

theorem deref_set (products : List Product) (i j : Nat) (x : Product) (hj : j < products.length) :
    deref (products.set j x) i = if j = i then x else deref products i := by
  unfold deref
  rw [List.getD_eq_getElem?_getD, List.getD_eq_getElem?_getD, List.getElem?_set]
  by_cases hji : j = i
  · subst hji
    simp [hj]
  · simp [hji]

/-- One `addItem`, whether it throws or not, keeps the stock of a product plus the
quantity the order holds of it. -/
theorem Order.addItem_conserves (o : Order) (products : List Product) (product i : Nat)
    (quantity : Int) :
    (deref (o.addItem products product quantity).state.2 i).stock
        + Order.reserved i (o.addItem products product quantity).state.1
      = (deref products i).stock + Order.reserved i o := by
  unfold Order.addItem
  by_cases hq : quantity ≤ 0
  · rw [if_pos hq]
  · rw [if_neg hq]
    by_cases hs : (deref products product).stock < quantity
    · rw [if_pos hs]
    · rw [if_neg hs]
      have hvalid : product < products.length := by
        by_contra hcon
        have hdef : deref products product = Clothing.default := by
          unfold deref
          rw [List.getD_eq_default _ _ (by omega)]
        rw [hdef] at hs
        simp only [Clothing.default] at hs
        omega
      have hup : ((deref products product).updateStock (-quantity)).state
          = { deref products product with stock := (deref products product).stock - quantity } := by
        unfold Product.updateStock
        dsimp only
        rw [addInt_neg _ _ (by omega) (by omega), if_neg (by omega)]
      dsimp only
      rw [hup, deref_set _ _ _ _ hvalid, Order.reserved_append]
      simp only [OrderItem.init]
      by_cases hpi : product = i
      · subst hpi
        simp only [if_true]
        omega
      · simp only [hpi, if_false]
        omega

theorem Call.run_conserves (app : App) (c : Call) (i : Nat) (hc : c.isOrdering = true) :
    (deref (c.run app).mainInventory.products i).stock + reservedQuantity (c.run app).orders i
      = (deref app.mainInventory.products i).stock + reservedQuantity app.orders i := by
  cases c with
  | createOrder customerName now =>
    simp [Call.run, Order.init, reservedQuantity, Order.reserved]
  | addItem order product quantity =>
    simp only [Call.run]
    cases hget : app.orders.get? order with
    | none => rfl
    | some o =>
      have h := Order.addItem_conserves o app.mainInventory.products product i quantity
      simp only [reservedQuantity]
      rw [sum_map_set (Order.reserved i) app.orders order o _ hget]
      omega
  | setPrice product newPrice => simp [Call.isOrdering] at hc
  | updateStock product quantity => simp [Call.isOrdering] at hc

/-- C25: in a shop that starts without orders, after any sequence of calls that
construct orders and add items to them, the `addItem` calls succeeding or
throwing, the stock of a product plus the quantities of all items of all orders
that refer to the product is the stock the product started with. -/
theorem stock_conservation (inventory : Inventory) (orderCounter : Int) (calls : List Call)
    (i : Nat) (h : ∀ c ∈ calls, c.isOrdering = true) :
    (deref (runCalls { mainInventory := inventory, orders := [], orderCounter := orderCounter }
        calls).mainInventory.products i).stock
      + reservedQuantity (runCalls
          { mainInventory := inventory, orders := [], orderCounter := orderCounter } calls).orders i
      = (deref inventory.products i).stock := by
  have key : ∀ (calls : List Call) (app : App), (∀ c ∈ calls, c.isOrdering = true) →
      (deref (runCalls app calls).mainInventory.products i).stock
        + reservedQuantity (runCalls app calls).orders i
      = (deref app.mainInventory.products i).stock + reservedQuantity app.orders i := by
    intro calls
    induction calls with
    | nil => intro app _; rfl
    | cons c cs ih =>
      intro app hall
      have hstep := Call.run_conserves app c i (hall c (by simp))
      have := ih (c.run app) (fun d hd => hall d (by simp [hd]))
      simp only [runCalls, List.foldl_cons] at this ⊢
      omega
  have := key calls { mainInventory := inventory, orders := [], orderCounter := orderCounter } h
  simpa [reservedQuantity] using this

/-- Witness of C25: the shirt starts with 5 in stock; Bob takes 3, a request of
Bob for 5 more is refused, Ann takes 2; the stock is 0 and the two orders hold
3 and 2. -/
theorem stock_conservation_witness :
    (∀ c ∈ [Call.createOrder "Bob" 0, .addItem 0 0 3, .addItem 0 0 5, .createOrder "Ann" 1,
      .addItem 1 0 2], c.isOrdering = true) ∧
    (deref (runCalls
        { mainInventory := oneShirtShop.mainInventory, orders := [], orderCounter := 1000 }
      [.createOrder "Bob" 0, .addItem 0 0 3, .addItem 0 0 5, .createOrder "Ann" 1,
        .addItem 1 0 2]).mainInventory.products 0).stock = 0 ∧
    ((runCalls { mainInventory := oneShirtShop.mainInventory, orders := [], orderCounter := 1000 }
      [.createOrder "Bob" 0, .addItem 0 0 3, .addItem 0 0 5, .createOrder "Ann" 1,
        .addItem 1 0 2]).orders.map (Order.reserved 0)) = [3, 2] ∧
    (deref (runCalls
        { mainInventory := oneShirtShop.mainInventory, orders := [], orderCounter := 1000 }
      [.createOrder "Bob" 0, .addItem 0 0 3, .addItem 0 0 5, .createOrder "Ann" 1,
        .addItem 1 0 2]).mainInventory.products 0).stock
      + reservedQuantity (runCalls
          { mainInventory := oneShirtShop.mainInventory, orders := [], orderCounter := 1000 }
        [.createOrder "Bob" 0, .addItem 0 0 3, .addItem 0 0 5, .createOrder "Ann" 1,
          .addItem 1 0 2]).orders 0
      = (deref oneShirtShop.mainInventory.products 0).stock :=
  ⟨by decide, by decide!, by decide!,
    stock_conservation oneShirtShop.mainInventory 1000 _ 0 (by decide)⟩

end IShop
